import Mathlib

/-!
Shallow embedding of the live CPU core of the atari.rs repository
(src/cpu/mod.rs, src/cpu/register.rs, src/cpu/addressing.rs,
src/cpu/alu.rs, src/cpu/mnemonics.rs — the revision actually wired into
Cpu::step).  Machine integers are modelled as Nat with explicit masks and
moduli; u8/u16 wrap-around mirrors the overflowing_* calls of the source,
and plain Rust arithmetic is given its release (wrapping) semantics.
A Rust panic is modelled as Option.none at the dispatch level.
-/

namespace AtariCpu

/-- Flat 64 KiB byte memory: the Rust slice of u8 of length 65536,
modelled as a total function from address to stored value. -/
def Mem : Type := Nat → Nat

/-- Slice assignment to one cell. -/
def writeMem (m : Mem) (addr v : Nat) : Mem :=
  fun i => if i = addr then v else m i

/-- A memory whose every cell holds a byte, as the u8 element type of the
Rust slice guarantees. -/
def Mem.Bytes (m : Mem) : Prop := ∀ i, m i < 256

/-- The register file of src/cpu/register.rs: PC, S, A, X, Y and the
packed status byte P (layout N V 1 B D I Z C). -/
structure Register where
  pc : Nat
  s : Nat
  a : Nat
  x : Nat
  y : Nat
  p : Nat

namespace Register

/-- Register::new -/
def new : Register :=
  { pc := 0x0600, s := 0xFF, a := 0x00, x := 0x00, y := 0x00, p := 0b00100000 }

/-- Register::increment_pc (u16 overflowing_add). -/
def increment_pc (r : Register) : Register :=
  { r with pc := (r.pc + 1) % 65536 }

/-- Register::increment_pc_by (u16 overflowing_add). -/
def increment_pc_by (r : Register) (amount : Nat) : Register :=
  { r with pc := (r.pc + amount) % 65536 }

/-- Register::set_pc -/
def set_pc (r : Register) (value : Nat) : Register :=
  { r with pc := value }

/-- Register::push_s (u8 overflowing_sub of 1). -/
def push_s (r : Register) : Register :=
  { r with s := (r.s + 255) % 256 }

/-- Register::pull_s (u8 overflowing_add of 1). -/
def pull_s (r : Register) : Register :=
  { r with s := (r.s + 1) % 256 }

/-- Register::set_s -/
def set_s (r : Register) (value : Nat) : Register :=
  { r with s := value }

/-- Register::set_accumulator -/
def set_accumulator (r : Register) (value : Nat) : Register :=
  { r with a := value }

/-- Register::set_x -/
def set_x (r : Register) (value : Nat) : Register :=
  { r with x := value }

/-- Register::set_y -/
def set_y (r : Register) (value : Nat) : Register :=
  { r with y := value }

/-- Register::carry_bit -/
def carry_bit (r : Register) : Bool := r.p &&& 0b00000001 != 0

/-- Register::zero_bit -/
def zero_bit (r : Register) : Bool := r.p &&& 0b00000010 != 0

/-- Register::overflow_bit -/
def overflow_bit (r : Register) : Bool := r.p &&& 0b01000000 != 0

/-- Register::decimal_bit -/
def decimal_bit (r : Register) : Bool := r.p &&& 0b00001000 != 0

/-- Register::negative_bit -/
def negative_bit (r : Register) : Bool := r.p &&& 0b10000000 != 0

/-- Register::set_negative_bit -/
def set_negative_bit (r : Register) (value : Bool) : Register :=
  if value then { r with p := r.p ||| 0b10000000 }
  else { r with p := r.p &&& 0b01111111 }

/-- Register::set_overflow_bit -/
def set_overflow_bit (r : Register) (value : Bool) : Register :=
  if value then { r with p := r.p ||| 0b01000000 }
  else { r with p := r.p &&& 0b10111111 }

/-- Register::set_decimal_bit -/
def set_decimal_bit (r : Register) (value : Bool) : Register :=
  if value then { r with p := r.p ||| 0b00001000 }
  else { r with p := r.p &&& 0b11110111 }

/-- Register::set_break_bit -/
def set_break_bit (r : Register) (value : Bool) : Register :=
  if value then { r with p := r.p ||| 0b00010000 }
  else { r with p := r.p &&& 0b11101111 }

/-- Register::set_interrupt_bit -/
def set_interrupt_bit (r : Register) (value : Bool) : Register :=
  if value then { r with p := r.p ||| 0b00000100 }
  else { r with p := r.p &&& 0b11111011 }

/-- Register::set_zero_bit -/
def set_zero_bit (r : Register) (value : Bool) : Register :=
  if value then { r with p := r.p ||| 0b00000010 }
  else { r with p := r.p &&& 0b11111101 }

/-- Register::set_carry_bit -/
def set_carry_bit (r : Register) (value : Bool) : Register :=
  if value then { r with p := r.p ||| 0b00000001 }
  else { r with p := r.p &&& 0b11111110 }

/-- Register::set_p — the write to P forces the hardwired bit 5. -/
def set_p (r : Register) (value : Nat) : Register :=
  { r with p := value ||| 0b00100000 }

/-- Register::calculate_nz_bits -/
def calculate_nz_bits (r : Register) (base : Nat) : Register :=
  (r.set_zero_bit (base == 0)).set_negative_bit (base > 127)

end Register

/-- The 13 addressing modes of src/cpu/addressing.rs. -/
inductive Addressing where
  | Implied
  | Accumulator
  | Immediate
  | Relative
  | ZeroPage
  | ZeroPageX
  | ZeroPageY
  | Absolute
  | AbsoluteX
  | AbsoluteY
  | Indirect
  | IndirectX
  | IndirectY
deriving DecidableEq

/-- The effective-address record returned by the resolver. -/
structure MemoryCell where
  address : Nat
  value : Nat
  in_bounds : Bool
  cycles : Nat
  bytes : Nat

/-- u16 reinterpreted as i16 (the pc as i16 cast in relative). -/
def i16OfU16 (n : Nat) : Int :=
  if n < 0x8000 then (n : Int) else (n : Int) - 0x10000

/-- i16 two's-complement wrap of an addition result (release semantics of
the plain + on i16 in relative). -/
def wrapI16 (x : Int) : Int :=
  ((x + 0x8000) % 0x10000) - 0x8000

/-- i16 cast to usize on a 64-bit host: sign extension into 64 bits. -/
def usizeOfI16 (x : Int) : Nat :=
  (x % (2 ^ 64 : Int)).toNat

/-- addressing.rs fn implied -/
def implied : MemoryCell :=
  { address := 0, value := 0, in_bounds := true, cycles := 0, bytes := 0 }

/-- addressing.rs fn immediate -/
def immediate (value : Nat) : MemoryCell :=
  { address := value, value := value % 256, in_bounds := true, cycles := 0, bytes := 1 }

/-- addressing.rs fn accumulator -/
def accumulator (r : Register) : MemoryCell :=
  { address := 0, value := r.a, in_bounds := true, cycles := 0, bytes := 0 }

/-- addressing.rs fn relative: sign-extend the operand, add it to PC with
i16 arithmetic, cast the i16 back to usize. -/
def relative (r : Register) (address : Nat) : MemoryCell :=
  let rel : Int := if address > 0x7f then (address : Int) - 0x100 else (address : Int)
  let addr : Nat := usizeOfI16 (wrapI16 (i16OfU16 r.pc + rel))
  { address := addr, value := 0,
    in_bounds := r.pc &&& 0xff00 == addr &&& 0xff00,
    cycles := 1, bytes := 1 }

/-- addressing.rs fn zeropage -/
def zeropage (m : Mem) (address : Nat) : MemoryCell :=
  let address := address &&& 0xff
  { address := address, value := m address, in_bounds := true, cycles := 1, bytes := 1 }

/-- addressing.rs fn zeropage_x -/
def zeropage_x (m : Mem) (r : Register) (address : Nat) : MemoryCell :=
  let address := (address + r.x) &&& 0xff
  { address := address, value := m address, in_bounds := true, cycles := 2, bytes := 1 }

/-- addressing.rs fn zeropage_y -/
def zeropage_y (m : Mem) (r : Register) (address : Nat) : MemoryCell :=
  let address := (address + r.y) &&& 0xff
  { address := address, value := m address, in_bounds := true, cycles := 2, bytes := 1 }

/-- addressing.rs fn absolute -/
def absolute (m : Mem) (address : Nat) : MemoryCell :=
  let address := address &&& 0xffff
  { address := address, value := m address, in_bounds := true, cycles := 2, bytes := 2 }

/-- addressing.rs fn absolute_x -/
def absolute_x (m : Mem) (r : Register) (address : Nat) : MemoryCell :=
  let new_address := (address + r.x) &&& 0xffff
  { address := new_address, value := m new_address,
    in_bounds := new_address &&& 0xff00 == address &&& 0xff00,
    cycles := 3, bytes := 2 }

/-- addressing.rs fn absolute_y -/
def absolute_y (m : Mem) (r : Register) (address : Nat) : MemoryCell :=
  let new_address := (address + r.y) &&& 0xffff
  { address := new_address, value := m new_address,
    in_bounds := new_address &&& 0xff00 == address &&& 0xff00,
    cycles := 3, bytes := 2 }

/-- addressing.rs fn indirect: only the low byte of the pointer is
incremented (the JMP page-boundary quirk). -/
def indirect (m : Mem) (address : Nat) : MemoryCell :=
  let next_cell_address := ((address + 1) &&& 0xff) + (address &&& 0xff00)
  let new_address := m address + (m next_cell_address <<< 8)
  { address := new_address, value := 0, in_bounds := true, cycles := 4, bytes := 2 }

/-- addressing.rs fn indirect_x: the zero-page pointer index is
(operand + X) masked to a byte, and the high pointer byte is read from the
NEXT linear address (address + 1), with no further zero-page mask. -/
def indirect_x (m : Mem) (r : Register) (address : Nat) : MemoryCell :=
  let address := (address + r.x) &&& 0xff
  let new_address := m address + (m (address + 1) <<< 8)
  { address := new_address, value := m new_address,
    in_bounds := true, cycles := 4, bytes := 1 }

/-- addressing.rs fn indirect_y: the pointer's low byte sits at
operand & 0xff, and its high byte is read from the NEXT linear address
(operand & 0xff) + 1, with no further zero-page mask. -/
def indirect_y (m : Mem) (r : Register) (address : Nat) : MemoryCell :=
  let address := m (address &&& 0xff) + (m ((address &&& 0xff) + 1) <<< 8)
  let new_address := (address + r.y) &&& 0xffff
  { address := new_address, value := m new_address,
    in_bounds := new_address &&& 0xff00 == address &&& 0xff00,
    cycles := 4, bytes := 1 }

/-- The result record of src/cpu/alu.rs: the byte plus all flag outputs. -/
structure AluResult where
  value : Nat
  negative : Bool
  overflow : Bool
  zero : Bool
  carry : Bool
deriving DecidableEq

namespace Alu

/-- u8 reinterpreted as i8 (the as i8 casts in bin_overflow). -/
def i8OfU8 (n : Nat) : Int :=
  if n < 128 then (n : Int) else (n : Int) - 256

/-- alu.rs fn calculate_nz_bits: (negative, zero). -/
def calculate_nz_bits (operand : Nat) : Bool × Bool :=
  (decide (operand > 127), decide (operand = 0))

/-- alu.rs fn bin_add: u8 overflowing_add, then one more overflowing_add
of 1 when the incoming carry is set. -/
def bin_add (a b : Nat) (initial_carry : Bool) : Nat × Bool :=
  let result := (a + b) % 256
  let computed_carry := decide (256 ≤ a + b)
  if initial_carry then
    let out := ((result + 1) % 256, decide (256 ≤ result + 1))
    (out.1, computed_carry || out.2)
  else (result, computed_carry)

/-- alu.rs fn bin_subtract: u8 overflowing_sub; carry is the no-borrow
bit a >= b, corrected when the incoming carry is clear. -/
def bin_subtract (a b : Nat) (initial_carry : Bool) : Nat × Bool :=
  let result := (a + 256 - b) % 256
  let computed_carry := decide (b ≤ a)
  if !initial_carry then
    let out := ((result + 255) % 256)
    (out, computed_carry && decide (1 ≤ result))
  else (result, computed_carry)

/-- alu.rs fn bin_overflow: the signed i16 sum escapes [-128, 127]. -/
def bin_overflow (operation : Char) (a b : Nat) (initial_carry : Bool) : Bool :=
  let carry_value : Int := if initial_carry then 1 else 0
  let left_operand : Int := i8OfU8 a
  let right_operand : Int := i8OfU8 b
  let v_sum : Int :=
    if operation = '-' then left_operand - right_operand - (1 - carry_value)
    else left_operand + right_operand + carry_value
  decide (v_sum < -128 ∨ v_sum > 127)

/-- alu.rs fn bcd_valid (the nibble test of the Jones BCD trick);
the u8 addition a + 0x06 wraps. -/
def bcd_valid (a : Nat) : Bool :=
  let t1 := (a + 0x06) % 256
  let t2 := t1 ^^^ a
  let t3 := t2 &&& 0x10
  t3 == 0

/-- The body of alu.rs fn bcd_add for a clear incoming carry (the
non-recursive path).  The u16 complement of t4 is the xor with 0xffff and
the u16 subtraction producing t7 wraps modulo 2^16. -/
def bcd_add_once (a b : Nat) : Nat × Bool :=
  let t1 := a + 0x0666
  let t2 := t1 + b
  let t3 := t1 ^^^ b
  let t4 := t2 ^^^ t3
  let carry_correction := if !bcd_valid a && !bcd_valid b && t4 != 0 then 0x10 else 0
  let t5 := (t4 ^^^ 0xffff) &&& 0x1110
  let t6 := (t5 >>> 2) ||| (t5 >>> 3)
  let t7 := (t2 + 0x20000 - t6 - carry_correction) % 0x10000
  (t7 &&& 0xff, decide (0 < t7 &&& 0xff00))

/-- alu.rs fn bcd_add: the recursion with initial_carry unfolds into one
further application of the carry-free body to the result and 0x01. -/
def bcd_add (a b : Nat) (initial_carry : Bool) : Nat × Bool :=
  let base := bcd_add_once a b
  if initial_carry then
    let out := bcd_add_once base.1 0x01
    (out.1, base.2 || out.2)
  else base

/-- alu.rs fn bcd_tencomp; the u8 subtraction 0x99 - a wraps. -/
def bcd_tencomp (a : Nat) : Nat :=
  (bcd_add ((0x99 + 256 - a) % 256) 0x01 false).1

/-- The body of alu.rs fn bcd_subtract for a set incoming carry (the
non-recursive path). -/
def bcd_subtract_once (a b : Nat) : Nat × Bool :=
  let t1 := bcd_tencomp b
  let result := (bcd_add a t1 false).1
  (result, decide (b ≤ a))

/-- alu.rs fn bcd_subtract: the recursion with a clear initial carry
unfolds into one further application of the set-carry body. -/
def bcd_subtract (a b : Nat) (initial_carry : Bool) : Nat × Bool :=
  let base := bcd_subtract_once a b
  if !initial_carry then
    let out := bcd_subtract_once base.1 0x01
    (out.1, base.2 && out.2)
  else base

/-- alu.rs fn bcd_overflow: signed high-nibble sum with the carry from
the low nibbles escapes [-8, 7]. -/
def bcd_overflow (a b : Nat) (initial_carry : Bool) : Bool :=
  let carry_value : Nat := if initial_carry then 1 else 0
  let left_operand : Int := (((a &&& 0b11110000) >>> 4 : Nat) : Int)
  let right_operand : Int := (((b &&& 0b11110000) >>> 4 : Nat) : Int)
  let left_operand := if left_operand > 7 then left_operand - 16 else left_operand
  let right_operand := if right_operand > 7 then right_operand - 16 else right_operand
  let carry : Int := if (a &&& 0b1111) + (b &&& 0b1111) + carry_value > 9 then 1 else 0
  let v_sum := left_operand + right_operand + carry
  decide (v_sum < -8 ∨ v_sum > 7)

/-- alu.rs fn calculate_overflow_bit -/
def calculate_overflow_bit (operation : Char) (base operand : Nat)
    (carry decimal : Bool) : Bool :=
  if !decimal || operation = '-' then bin_overflow operation base operand carry
  else bcd_overflow base operand carry

/-- alu.rs fn calculate_addition_result_in_proper_math_mode -/
def calculate_addition_result_in_proper_math_mode (base operand : Nat)
    (carry decimal : Bool) : Nat × Bool :=
  if !decimal then bin_add base operand carry
  else bcd_add base operand carry

/-- alu.rs fn calculate_subtraction_result_in_proper_math_mode -/
def calculate_subtraction_result_in_proper_math_mode (base operand : Nat)
    (carry decimal : Bool) : Nat × Bool :=
  if !decimal then bin_subtract base operand carry
  else bcd_subtract base operand carry

/-- alu.rs pub fn add -/
def add (base operand : Nat) (carry_in decimal : Bool) : AluResult :=
  let rc := calculate_addition_result_in_proper_math_mode base operand carry_in decimal
  let overflow := calculate_overflow_bit '+' base operand carry_in decimal
  let nz := calculate_nz_bits rc.1
  { value := rc.1, negative := nz.1, overflow := overflow, zero := nz.2, carry := rc.2 }

/-- alu.rs pub fn subtract -/
def subtract (base operand : Nat) (carry_in decimal : Bool) : AluResult :=
  let rc := calculate_subtraction_result_in_proper_math_mode base operand carry_in decimal
  let overflow := calculate_overflow_bit '-' base operand carry_in decimal
  let nz := calculate_nz_bits rc.1
  { value := rc.1, negative := nz.1, overflow := overflow, zero := nz.2, carry := rc.2 }

/-- alu.rs pub fn and -/
def and (base operand : Nat) : AluResult :=
  let result := base &&& operand
  let nz := calculate_nz_bits result
  { value := result, negative := nz.1, overflow := false, zero := nz.2, carry := false }

/-- alu.rs pub fn or -/
def or (base operand : Nat) : AluResult :=
  let result := base ||| operand
  let nz := calculate_nz_bits result
  { value := result, negative := nz.1, overflow := false, zero := nz.2, carry := false }

/-- alu.rs pub fn xor -/
def xor (base operand : Nat) : AluResult :=
  let result := base ^^^ operand
  let nz := calculate_nz_bits result
  { value := result, negative := nz.1, overflow := false, zero := nz.2, carry := false }

/-- alu.rs pub fn decrement (u8 overflowing_sub of 1). -/
def decrement (operand : Nat) : AluResult :=
  let result := (operand + 255) % 256
  let nz := calculate_nz_bits result
  { value := result, negative := nz.1, overflow := false, zero := nz.2, carry := false }

/-- alu.rs pub fn increment (u8 overflowing_add of 1). -/
def increment (operand : Nat) : AluResult :=
  let result := (operand + 1) % 256
  let nz := calculate_nz_bits result
  { value := result, negative := nz.1, overflow := false, zero := nz.2, carry := false }

/-- alu.rs pub fn shift_left (u8 shift drops the top bit). -/
def shift_left (operand : Nat) : AluResult :=
  let result := (operand <<< 1) % 256
  let carry := decide (operand > 127)
  let nz := calculate_nz_bits result
  { value := result, negative := nz.1, overflow := false, zero := nz.2, carry := carry }

/-- alu.rs pub fn shift_right -/
def shift_right (operand : Nat) : AluResult :=
  let result := operand >>> 1
  let carry := operand &&& 1 == 1
  let nz := calculate_nz_bits result
  { value := result, negative := nz.1, overflow := false, zero := nz.2, carry := carry }

end Alu

/-- addressing.rs fn stack_push: write at 0x100 + S, then decrement S. -/
def stack_push (m : Mem) (r : Register) (value : Nat) : Mem × Register :=
  let stack_address := r.s + 0x100
  (writeMem m stack_address value, r.push_s)

/-- addressing.rs fn stack_pull: increment S, then read at 0x100 + S. -/
def stack_pull (m : Mem) (r : Register) : Nat × Register :=
  let r := r.pull_s
  (m (r.s + 0x100), r)

/-- Addressing::read — consume the operand bytes after PC, advance PC,
and resolve the effective address (the big match of addressing.rs). -/
def Addressing.read (mode : Addressing) (m : Mem) (r : Register) : MemoryCell × Register :=
  match mode with
  | .Implied => (implied, r)
  | .Accumulator => (accumulator r, r)
  | .Immediate =>
      let value := m r.pc
      let r := r.increment_pc
      (immediate value, r)
  | .Relative =>
      let address := m r.pc
      let r := r.increment_pc
      (relative r address, r)
  | .ZeroPage =>
      let address := m r.pc
      let r := r.increment_pc
      (zeropage m address, r)
  | .ZeroPageX =>
      let address := m r.pc
      let r := r.increment_pc
      (zeropage_x m r address, r)
  | .ZeroPageY =>
      let address := m r.pc
      let r := r.increment_pc
      (zeropage_y m r address, r)
  | .Absolute =>
      let address := m r.pc
      let r := r.increment_pc
      let address := (m r.pc <<< 8) + address
      let r := r.increment_pc
      (absolute m address, r)
  | .AbsoluteX =>
      let address := m r.pc
      let r := r.increment_pc
      let address := (m r.pc <<< 8) + address
      let r := r.increment_pc
      (absolute_x m r address, r)
  | .AbsoluteY =>
      let address := m r.pc
      let r := r.increment_pc
      let address := (m r.pc <<< 8) + address
      let r := r.increment_pc
      (absolute_y m r address, r)
  | .Indirect =>
      let address := m r.pc
      let r := r.increment_pc
      let address := (m r.pc <<< 8) + address
      let r := r.increment_pc
      (indirect m address, r)
  | .IndirectX =>
      let address := m r.pc
      let r := r.increment_pc
      (indirect_x m r address, r)
  | .IndirectY =>
      let address := m r.pc
      let r := r.increment_pc
      (indirect_y m r address, r)

namespace Insn

/-- mnemonics.rs fn set_nz_from_alu_result_bits -/
def set_nz_from_alu_result_bits (r : Register) (result : AluResult) : Register :=
  (r.set_negative_bit result.negative).set_zero_bit result.zero

/-- mnemonics.rs fn set_nzc_from_alu_result_bits -/
def set_nzc_from_alu_result_bits (r : Register) (result : AluResult) : Register :=
  set_nz_from_alu_result_bits (r.set_carry_bit result.carry) result

/-- mnemonics.rs fn set_nvzc_from_alu_result_bits -/
def set_nvzc_from_alu_result_bits (r : Register) (result : AluResult) : Register :=
  set_nzc_from_alu_result_bits (r.set_overflow_bit result.overflow) result

/-- mnemonics.rs fn set_nz_from_raw_result_bits -/
def set_nz_from_raw_result_bits (r : Register) (result : Nat) : Register :=
  (r.set_negative_bit (decide (result > 127))).set_zero_bit (result == 0)

/-- mnemonics.rs fn adc -/
def adc (cell : MemoryCell) (r : Register) : Register × Nat :=
  let result := Alu.add r.a cell.value r.carry_bit r.decimal_bit
  let r := { r with a := result.value }
  (set_nvzc_from_alu_result_bits r result,
   2 + cell.cycles + if cell.in_bounds then 0 else 1)

/-- mnemonics.rs fn and -/
def and (cell : MemoryCell) (r : Register) : Register × Nat :=
  let result := Alu.and r.a cell.value
  let r := { r with a := result.value }
  (set_nz_from_alu_result_bits r result,
   2 + cell.cycles + if cell.in_bounds then 0 else 1)

/-- mnemonics.rs fn asl -/
def asl (m : Mem) (cell : MemoryCell) (r : Register) : Mem × Register × Nat :=
  let result := Alu.shift_left cell.value
  let result_value := result.value
  let r := set_nzc_from_alu_result_bits r result
  if cell.cycles = 0 then (m, { r with a := result_value }, 2)
  else (writeMem m cell.address result_value, r, 4 + cell.cycles)

/-- mnemonics.rs fn bcc -/
def bcc (cell : MemoryCell) (r : Register) : Register × Nat :=
  if r.carry_bit then (r, 2)
  else (r.set_pc (cell.address % 65536),
        2 + cell.cycles + if cell.in_bounds then 0 else 1)

/-- mnemonics.rs fn bcs -/
def bcs (cell : MemoryCell) (r : Register) : Register × Nat :=
  if !r.carry_bit then (r, 2)
  else (r.set_pc (cell.address % 65536),
        2 + cell.cycles + if cell.in_bounds then 0 else 1)

/-- mnemonics.rs fn beq -/
def beq (cell : MemoryCell) (r : Register) : Register × Nat :=
  if !r.zero_bit then (r, 2)
  else (r.set_pc (cell.address % 65536),
        2 + cell.cycles + if cell.in_bounds then 0 else 1)

/-- mnemonics.rs fn bit -/
def bit (cell : MemoryCell) (r : Register) : Register × Nat :=
  let r := r.set_negative_bit (cell.value &&& 0x80 == 0x80)
  let r := r.set_overflow_bit (cell.value &&& 0x40 == 0x40)
  let r := r.set_zero_bit (cell.value &&& r.a == 0)
  (r, 2 + cell.cycles)

/-- mnemonics.rs fn bmi -/
def bmi (cell : MemoryCell) (r : Register) : Register × Nat :=
  if !r.negative_bit then (r, 2)
  else (r.set_pc (cell.address % 65536),
        2 + cell.cycles + if cell.in_bounds then 0 else 1)

/-- mnemonics.rs fn bne -/
def bne (cell : MemoryCell) (r : Register) : Register × Nat :=
  if r.zero_bit then (r, 2)
  else (r.set_pc (cell.address % 65536),
        2 + cell.cycles + if cell.in_bounds then 0 else 1)

/-- mnemonics.rs fn bpl -/
def bpl (cell : MemoryCell) (r : Register) : Register × Nat :=
  if r.negative_bit then (r, 2)
  else (r.set_pc (cell.address % 65536),
        2 + cell.cycles + if cell.in_bounds then 0 else 1)

/-- mnemonics.rs fn brk: advance PC once more, push PC high then low,
set B, push P, load PC from the IRQ vector, set I. -/
def brk (m : Mem) (r : Register) : Mem × Register × Nat :=
  let r := r.increment_pc
  let (m, r) := stack_push m r ((r.pc >>> 8) % 256)
  let (m, r) := stack_push m r (r.pc % 256)
  let r := r.set_break_bit true
  let (m, r) := stack_push m r r.p
  let pc_low := m 0xfffe
  let pc_high := m 0xffff
  let r := r.set_pc ((pc_high <<< 8) + pc_low)
  let r := r.set_interrupt_bit true
  (m, r, 7)

/-- mnemonics.rs fn bvc -/
def bvc (cell : MemoryCell) (r : Register) : Register × Nat :=
  if r.overflow_bit then (r, 2)
  else (r.set_pc (cell.address % 65536),
        2 + cell.cycles + if cell.in_bounds then 0 else 1)

/-- mnemonics.rs fn bvs -/
def bvs (cell : MemoryCell) (r : Register) : Register × Nat :=
  if !r.overflow_bit then (r, 2)
  else (r.set_pc (cell.address % 65536),
        2 + cell.cycles + if cell.in_bounds then 0 else 1)

/-- mnemonics.rs fn clc -/
def clc (r : Register) : Register × Nat := (r.set_carry_bit false, 2)

/-- mnemonics.rs fn cld -/
def cld (r : Register) : Register × Nat := (r.set_decimal_bit false, 2)

/-- mnemonics.rs fn cli -/
def cli (r : Register) : Register × Nat := (r.set_interrupt_bit false, 2)

/-- mnemonics.rs fn clv -/
def clv (r : Register) : Register × Nat := (r.set_overflow_bit false, 2)

/-- mnemonics.rs fn cmp -/
def cmp (cell : MemoryCell) (r : Register) : Register × Nat :=
  let result := Alu.subtract r.a cell.value true false
  (set_nzc_from_alu_result_bits r result,
   2 + cell.cycles + if cell.in_bounds then 0 else 1)

/-- mnemonics.rs fn cpx -/
def cpx (cell : MemoryCell) (r : Register) : Register × Nat :=
  let result := Alu.subtract r.x cell.value true false
  (set_nzc_from_alu_result_bits r result,
   2 + cell.cycles + if cell.in_bounds then 0 else 1)

/-- mnemonics.rs fn cpy -/
def cpy (cell : MemoryCell) (r : Register) : Register × Nat :=
  let result := Alu.subtract r.y cell.value true false
  (set_nzc_from_alu_result_bits r result,
   2 + cell.cycles + if cell.in_bounds then 0 else 1)

/-- mnemonics.rs fn dec -/
def dec (m : Mem) (cell : MemoryCell) (r : Register) : Mem × Register × Nat :=
  let result := Alu.decrement cell.value
  let m := writeMem m cell.address result.value
  (m, set_nz_from_alu_result_bits r result, 4 + cell.cycles)

/-- mnemonics.rs fn dex -/
def dex (r : Register) : Register × Nat :=
  let result := Alu.decrement r.x
  let r := { r with x := result.value }
  (set_nz_from_alu_result_bits r result, 2)

/-- mnemonics.rs fn dey -/
def dey (r : Register) : Register × Nat :=
  let result := Alu.decrement r.y
  let r := { r with y := result.value }
  (set_nz_from_alu_result_bits r result, 2)

/-- mnemonics.rs fn eor -/
def eor (cell : MemoryCell) (r : Register) : Register × Nat :=
  let result := Alu.xor r.a cell.value
  let r := { r with a := result.value }
  (set_nz_from_alu_result_bits r result,
   2 + cell.cycles + if cell.in_bounds then 0 else 1)

/-- mnemonics.rs fn inc -/
def inc (m : Mem) (cell : MemoryCell) (r : Register) : Mem × Register × Nat :=
  let result := Alu.increment cell.value
  let m := writeMem m cell.address result.value
  (m, set_nz_from_alu_result_bits r result, 4 + cell.cycles)

/-- mnemonics.rs fn inx -/
def inx (r : Register) : Register × Nat :=
  let result := Alu.increment r.x
  let r := { r with x := result.value }
  (set_nz_from_alu_result_bits r result, 2)

/-- mnemonics.rs fn iny -/
def iny (r : Register) : Register × Nat :=
  let result := Alu.increment r.y
  let r := { r with y := result.value }
  (set_nz_from_alu_result_bits r result, 2)

/-- mnemonics.rs fn jmp -/
def jmp (cell : MemoryCell) (r : Register) : Register × Nat :=
  (r.set_pc (cell.address % 65536), 1 + cell.cycles)

/-- mnemonics.rs fn jsr: decrement PC (u16 wrap), push its high then low
byte, then jump to the resolved address. -/
def jsr (m : Mem) (cell : MemoryCell) (r : Register) : Mem × Register × Nat :=
  let r := r.set_pc ((r.pc + 65535) % 65536)
  let (m, r) := stack_push m r ((r.pc &&& 0xff00) >>> 8)
  let (m, r) := stack_push m r (r.pc % 256)
  let r := r.set_pc (cell.address % 65536)
  (m, r, 6)

/-- mnemonics.rs fn lda -/
def lda (cell : MemoryCell) (r : Register) : Register × Nat :=
  let r := { r with a := cell.value }
  (set_nz_from_raw_result_bits r cell.value,
   2 + cell.cycles + if cell.in_bounds then 0 else 1)

/-- mnemonics.rs fn ldx -/
def ldx (cell : MemoryCell) (r : Register) : Register × Nat :=
  let r := { r with x := cell.value }
  (set_nz_from_raw_result_bits r cell.value,
   2 + cell.cycles + if cell.in_bounds then 0 else 1)

/-- mnemonics.rs fn ldy -/
def ldy (cell : MemoryCell) (r : Register) : Register × Nat :=
  let r := { r with y := cell.value }
  (set_nz_from_raw_result_bits r cell.value,
   2 + cell.cycles + if cell.in_bounds then 0 else 1)

/-- mnemonics.rs fn lsr -/
def lsr (m : Mem) (cell : MemoryCell) (r : Register) : Mem × Register × Nat :=
  let result := Alu.shift_right cell.value
  let result_value := result.value
  let r := set_nzc_from_alu_result_bits r result
  if cell.cycles = 0 then (m, { r with a := result_value }, 2)
  else (writeMem m cell.address result_value, r, 4 + cell.cycles)

/-- mnemonics.rs fn nop -/
def nop : Nat := 2

/-- mnemonics.rs fn ora -/
def ora (cell : MemoryCell) (r : Register) : Register × Nat :=
  let result := Alu.or r.a cell.value
  let r := { r with a := result.value }
  (set_nz_from_alu_result_bits r result,
   2 + cell.cycles + if cell.in_bounds then 0 else 1)

/-- mnemonics.rs fn pha -/
def pha (m : Mem) (r : Register) : Mem × Register × Nat :=
  let (m, r) := stack_push m r r.a
  (m, r, 3)

/-- mnemonics.rs fn php: the pushed byte is P with 0x30 or-ed in. -/
def php (m : Mem) (r : Register) : Mem × Register × Nat :=
  let (m, r) := stack_push m r (r.p ||| 0x30)
  (m, r, 3)

/-- mnemonics.rs fn pla -/
def pla (m : Mem) (r : Register) : Register × Nat :=
  let (v, r) := stack_pull m r
  let r := { r with a := v }
  (set_nz_from_raw_result_bits r r.a, 4)

/-- mnemonics.rs fn plp -/
def plp (m : Mem) (r : Register) : Register × Nat :=
  let (status_register, r) := stack_pull m r
  (r.set_p status_register, 4)

/-- mnemonics.rs fn rol -/
def rol (m : Mem) (cell : MemoryCell) (r : Register) : Mem × Register × Nat :=
  let previous_carry_bit := r.carry_bit
  let result := Alu.shift_left cell.value
  let result_value := if previous_carry_bit then result.value ||| 0x01
                      else result.value &&& 0xFE
  let r := set_nz_from_raw_result_bits r result_value
  let r := r.set_carry_bit result.carry
  if cell.cycles = 0 then (m, { r with a := result_value }, 2)
  else (writeMem m cell.address result_value, r, 4 + cell.cycles)

/-- mnemonics.rs fn ror -/
def ror (m : Mem) (cell : MemoryCell) (r : Register) : Mem × Register × Nat :=
  let previous_carry_bit := r.carry_bit
  let result := Alu.shift_right cell.value
  let result_value := if previous_carry_bit then result.value ||| 0x80
                      else result.value &&& 0x7f
  let r := set_nz_from_raw_result_bits r result_value
  let r := r.set_carry_bit result.carry
  if cell.cycles = 0 then (m, { r with a := result_value }, 2)
  else (writeMem m cell.address result_value, r, 4 + cell.cycles)

/-- mnemonics.rs fn rti -/
def rti (m : Mem) (r : Register) : Register × Nat :=
  let (status_register, r) := stack_pull m r
  let (pc_low, r) := stack_pull m r
  let (pc_high, r) := stack_pull m r
  let r := r.set_p status_register
  let r := r.set_break_bit false
  let r := r.set_pc ((pc_high <<< 8) + pc_low)
  (r, 6)

/-- mnemonics.rs fn rts -/
def rts (m : Mem) (r : Register) : Register × Nat :=
  let (pc_low, r) := stack_pull m r
  let (pc_high, r) := stack_pull m r
  let r := r.set_pc (((pc_high <<< 8) + pc_low + 1) % 65536)
  (r, 6)

/-- mnemonics.rs fn sbc -/
def sbc (cell : MemoryCell) (r : Register) : Register × Nat :=
  let result := Alu.subtract r.a cell.value r.carry_bit r.decimal_bit
  let r := { r with a := result.value }
  (set_nvzc_from_alu_result_bits r result,
   2 + cell.cycles + if cell.in_bounds then 0 else 1)

/-- mnemonics.rs fn sec -/
def sec (r : Register) : Register × Nat := (r.set_carry_bit true, 2)

/-- mnemonics.rs fn sed -/
def sed (r : Register) : Register × Nat := (r.set_decimal_bit true, 2)

/-- mnemonics.rs fn sei -/
def sei (r : Register) : Register × Nat := (r.set_interrupt_bit true, 2)

/-- mnemonics.rs fn sta -/
def sta (m : Mem) (cell : MemoryCell) (r : Register) : Mem × Register × Nat :=
  (writeMem m cell.address r.a, r, 2 + cell.cycles)

/-- mnemonics.rs fn stx -/
def stx (m : Mem) (cell : MemoryCell) (r : Register) : Mem × Register × Nat :=
  (writeMem m cell.address r.x, r, 2 + cell.cycles)

/-- mnemonics.rs fn sty -/
def sty (m : Mem) (cell : MemoryCell) (r : Register) : Mem × Register × Nat :=
  (writeMem m cell.address r.y, r, 2 + cell.cycles)

/-- mnemonics.rs fn tax -/
def tax (r : Register) : Register × Nat :=
  let r := { r with x := r.a }
  (set_nz_from_raw_result_bits r r.a, 2)

/-- mnemonics.rs fn tay -/
def tay (r : Register) : Register × Nat :=
  let r := { r with y := r.a }
  (set_nz_from_raw_result_bits r r.a, 2)

/-- mnemonics.rs fn tsx -/
def tsx (r : Register) : Register × Nat :=
  let r := { r with x := r.s }
  (set_nz_from_raw_result_bits r r.s, 2)

/-- mnemonics.rs fn txa -/
def txa (r : Register) : Register × Nat :=
  let r := { r with a := r.x }
  (set_nz_from_raw_result_bits r r.x, 2)

/-- mnemonics.rs fn txs -/
def txs (r : Register) : Register × Nat :=
  (r.set_s r.x, 2)

/-- mnemonics.rs fn tya -/
def tya (r : Register) : Register × Nat :=
  let r := { r with a := r.y }
  (set_nz_from_raw_result_bits r r.y, 2)

end Insn

/-- The tagged opcode mnemonics of mnemonics.rs; each carries its
addressing mode, and NUL marks an illegal opcode. -/
inductive Mnemonics where
  | NUL
  | ADC (mode : Addressing) | AND (mode : Addressing) | ASL (mode : Addressing)
  | BCC (mode : Addressing) | BCS (mode : Addressing) | BEQ (mode : Addressing)
  | BIT (mode : Addressing) | BMI (mode : Addressing) | BNE (mode : Addressing)
  | BPL (mode : Addressing) | BRK (mode : Addressing) | BVC (mode : Addressing)
  | BVS (mode : Addressing) | CLC (mode : Addressing) | CLD (mode : Addressing)
  | CLI (mode : Addressing) | CLV (mode : Addressing) | CMP (mode : Addressing)
  | CPX (mode : Addressing) | CPY (mode : Addressing) | DEC (mode : Addressing)
  | DEX (mode : Addressing) | DEY (mode : Addressing) | EOR (mode : Addressing)
  | INC (mode : Addressing) | INX (mode : Addressing) | INY (mode : Addressing)
  | JMP (mode : Addressing) | JSR (mode : Addressing) | LDA (mode : Addressing)
  | LDX (mode : Addressing) | LDY (mode : Addressing) | LSR (mode : Addressing)
  | NOP (mode : Addressing) | ORA (mode : Addressing) | PHA (mode : Addressing)
  | PHP (mode : Addressing) | PLA (mode : Addressing) | PLP (mode : Addressing)
  | ROL (mode : Addressing) | ROR (mode : Addressing) | RTI (mode : Addressing)
  | RTS (mode : Addressing) | SBC (mode : Addressing) | SEC (mode : Addressing)
  | SED (mode : Addressing) | SEI (mode : Addressing) | STA (mode : Addressing)
  | STX (mode : Addressing) | STY (mode : Addressing) | TAX (mode : Addressing)
  | TAY (mode : Addressing) | TSX (mode : Addressing) | TXA (mode : Addressing)
  | TXS (mode : Addressing) | TYA (mode : Addressing)

/-- Mnemonics::handle of mnemonics.rs: resolve the addressing mode, run
the per-mnemonic function, and hand back the consumed cycles.  The NUL
arm is the panic of the source, modelled as none. -/
def Mnemonics.handle (mn : Mnemonics) (m : Mem) (r : Register) :
    Option (Mem × Register × Nat) :=
  match mn with
  | .ADC mode =>
      let (cell, r) := mode.read m r
      let (r, n) := Insn.adc cell r
      some (m, r, n)
  | .AND mode =>
      let (cell, r) := mode.read m r
      let (r, n) := Insn.and cell r
      some (m, r, n)
  | .ASL mode =>
      let (cell, r) := mode.read m r
      some (Insn.asl m cell r)
  | .BCC mode =>
      let (cell, r) := mode.read m r
      let (r, n) := Insn.bcc cell r
      some (m, r, n)
  | .BCS mode =>
      let (cell, r) := mode.read m r
      let (r, n) := Insn.bcs cell r
      some (m, r, n)
  | .BEQ mode =>
      let (cell, r) := mode.read m r
      let (r, n) := Insn.beq cell r
      some (m, r, n)
  | .BIT mode =>
      let (cell, r) := mode.read m r
      let (r, n) := Insn.bit cell r
      some (m, r, n)
  | .BMI mode =>
      let (cell, r) := mode.read m r
      let (r, n) := Insn.bmi cell r
      some (m, r, n)
  | .BNE mode =>
      let (cell, r) := mode.read m r
      let (r, n) := Insn.bne cell r
      some (m, r, n)
  | .BPL mode =>
      let (cell, r) := mode.read m r
      let (r, n) := Insn.bpl cell r
      some (m, r, n)
  | .BRK _mode => some (Insn.brk m r)
  | .BVC mode =>
      let (cell, r) := mode.read m r
      let (r, n) := Insn.bvc cell r
      some (m, r, n)
  | .BVS mode =>
      let (cell, r) := mode.read m r
      let (r, n) := Insn.bvs cell r
      some (m, r, n)
  | .CLC _mode =>
      let (r, n) := Insn.clc r
      some (m, r, n)
  | .CLD _mode =>
      let (r, n) := Insn.cld r
      some (m, r, n)
  | .CLI _mode =>
      let (r, n) := Insn.cli r
      some (m, r, n)
  | .CLV _mode =>
      let (r, n) := Insn.clv r
      some (m, r, n)
  | .CMP mode =>
      let (cell, r) := mode.read m r
      let (r, n) := Insn.cmp cell r
      some (m, r, n)
  | .CPX mode =>
      let (cell, r) := mode.read m r
      let (r, n) := Insn.cpx cell r
      some (m, r, n)
  | .CPY mode =>
      let (cell, r) := mode.read m r
      let (r, n) := Insn.cpy cell r
      some (m, r, n)
  | .DEC mode =>
      let (cell, r) := mode.read m r
      some (Insn.dec m cell r)
  | .DEX _mode =>
      let (r, n) := Insn.dex r
      some (m, r, n)
  | .DEY _mode =>
      let (r, n) := Insn.dey r
      some (m, r, n)
  | .EOR mode =>
      let (cell, r) := mode.read m r
      let (r, n) := Insn.eor cell r
      some (m, r, n)
  | .INC mode =>
      let (cell, r) := mode.read m r
      some (Insn.inc m cell r)
  | .INX _mode =>
      let (r, n) := Insn.inx r
      some (m, r, n)
  | .INY _mode =>
      let (r, n) := Insn.iny r
      some (m, r, n)
  | .JMP mode =>
      let (cell, r) := mode.read m r
      let (r, n) := Insn.jmp cell r
      some (m, r, n)
  | .JSR mode =>
      let (cell, r) := mode.read m r
      some (Insn.jsr m cell r)
  | .LDA mode =>
      let (cell, r) := mode.read m r
      let (r, n) := Insn.lda cell r
      some (m, r, n)
  | .LDX mode =>
      let (cell, r) := mode.read m r
      let (r, n) := Insn.ldx cell r
      some (m, r, n)
  | .LDY mode =>
      let (cell, r) := mode.read m r
      let (r, n) := Insn.ldy cell r
      some (m, r, n)
  | .LSR mode =>
      let (cell, r) := mode.read m r
      some (Insn.lsr m cell r)
  | .NOP _mode => some (m, r, Insn.nop)
  | .ORA mode =>
      let (cell, r) := mode.read m r
      let (r, n) := Insn.ora cell r
      some (m, r, n)
  | .PHA _mode => some (Insn.pha m r)
  | .PHP _mode => some (Insn.php m r)
  | .PLA _mode =>
      let (r, n) := Insn.pla m r
      some (m, r, n)
  | .PLP _mode =>
      let (r, n) := Insn.plp m r
      some (m, r, n)
  | .ROL mode =>
      let (cell, r) := mode.read m r
      some (Insn.rol m cell r)
  | .ROR mode =>
      let (cell, r) := mode.read m r
      some (Insn.ror m cell r)
  | .RTI _mode =>
      let (r, n) := Insn.rti m r
      some (m, r, n)
  | .RTS _mode =>
      let (r, n) := Insn.rts m r
      some (m, r, n)
  | .SBC mode =>
      let (cell, r) := mode.read m r
      let (r, n) := Insn.sbc cell r
      some (m, r, n)
  | .SEC _mode =>
      let (r, n) := Insn.sec r
      some (m, r, n)
  | .SED _mode =>
      let (r, n) := Insn.sed r
      some (m, r, n)
  | .SEI _mode =>
      let (r, n) := Insn.sei r
      some (m, r, n)
  | .STA mode =>
      let (cell, r) := mode.read m r
      some (Insn.sta m cell r)
  | .STX mode =>
      let (cell, r) := mode.read m r
      some (Insn.stx m cell r)
  | .STY mode =>
      let (cell, r) := mode.read m r
      some (Insn.sty m cell r)
  | .TAX _mode =>
      let (r, n) := Insn.tax r
      some (m, r, n)
  | .TAY _mode =>
      let (r, n) := Insn.tay r
      some (m, r, n)
  | .TSX _mode =>
      let (r, n) := Insn.tsx r
      some (m, r, n)
  | .TXA _mode =>
      let (r, n) := Insn.txa r
      some (m, r, n)
  | .TXS _mode =>
      let (r, n) := Insn.txs r
      some (m, r, n)
  | .TYA _mode =>
      let (r, n) := Insn.tya r
      some (m, r, n)
  | .NUL => none

open Mnemonics Addressing in
/-- The 256-entry decode table OPCODES of src/cpu/mod.rs, row by row. -/
def OPCODES : List Mnemonics := [
  BRK Implied,   ORA IndirectX, NUL,           NUL, NUL,            ORA ZeroPage,  ASL ZeroPage,  NUL, PHP Implied, ORA Immediate, ASL Accumulator, NUL, NUL,           ORA Absolute,  ASL Absolute,  NUL,
  BPL Relative,  ORA IndirectY, NUL,           NUL, NUL,            ORA ZeroPageX, ASL ZeroPageX, NUL, CLC Implied, ORA AbsoluteY, NUL,             NUL, NUL,           ORA AbsoluteX, ASL AbsoluteX, NUL,
  JSR Absolute,  AND IndirectX, NUL,           NUL, BIT ZeroPage,   AND ZeroPage,  ROL ZeroPage,  NUL, PLP Implied, AND Immediate, ROL Accumulator, NUL, BIT Absolute,  AND Absolute,  ROL Absolute,  NUL,
  BMI Relative,  AND IndirectY, NUL,           NUL, NUL,            AND ZeroPageX, ROL ZeroPageX, NUL, SEC Implied, AND AbsoluteY, NUL,             NUL, NUL,           AND AbsoluteX, ROL AbsoluteX, NUL,
  RTI Implied,   EOR IndirectX, NUL,           NUL, NUL,            EOR ZeroPage,  LSR ZeroPage,  NUL, PHA Implied, EOR Immediate, LSR Accumulator, NUL, JMP Absolute,  EOR Absolute,  LSR Absolute,  NUL,
  BVC Relative,  EOR IndirectY, NUL,           NUL, NUL,            EOR ZeroPageX, LSR ZeroPageX, NUL, CLI Implied, EOR AbsoluteY, NUL,             NUL, NUL,           EOR AbsoluteX, LSR AbsoluteX, NUL,
  RTS Implied,   ADC IndirectX, NUL,           NUL, NUL,            ADC ZeroPage,  ROR ZeroPage,  NUL, PLA Implied, ADC Immediate, ROR Accumulator, NUL, JMP Indirect,  ADC Absolute,  ROR Absolute,  NUL,
  BVS Relative,  ADC IndirectY, NUL,           NUL, NUL,            ADC ZeroPageX, ROR ZeroPageX, NUL, SEI Implied, ADC AbsoluteY, NUL,             NUL, NUL,           ADC AbsoluteX, ROR AbsoluteX, NUL,
  NUL,           STA IndirectX, NUL,           NUL, STY ZeroPage,   STA ZeroPage,  STX ZeroPage,  NUL, DEY Implied, NUL,           TXA Implied,     NUL, STY Absolute,  STA Absolute,  STX Absolute,  NUL,
  BCC Relative,  STA IndirectY, NUL,           NUL, STY ZeroPageX,  STA ZeroPageX, STX ZeroPageY, NUL, TYA Implied, STA AbsoluteY, TXS Implied,     NUL, NUL,           STA AbsoluteX, NUL,           NUL,
  LDY Immediate, LDA IndirectX, LDX Immediate, NUL, LDY ZeroPage,   LDA ZeroPage,  LDX ZeroPage,  NUL, TAY Implied, LDA Immediate, TAX Implied,     NUL, LDY Absolute,  LDA Absolute,  LDX Absolute,  NUL,
  BCS Relative,  LDA IndirectY, NUL,           NUL, LDY ZeroPageX,  LDA ZeroPageX, LDX ZeroPageY, NUL, CLV Implied, LDA AbsoluteY, TSX Implied,     NUL, LDY AbsoluteX, LDA AbsoluteX, LDX AbsoluteY, NUL,
  CPY Immediate, CMP IndirectX, NUL,           NUL, CPY ZeroPage,   CMP ZeroPage,  DEC ZeroPage,  NUL, INY Implied, CMP Immediate, DEX Implied,     NUL, CPY Absolute,  CMP Absolute,  DEC Absolute,  NUL,
  BNE Relative,  CMP IndirectY, NUL,           NUL, NUL,            CMP ZeroPageX, DEC ZeroPageX, NUL, CLD Implied, CMP AbsoluteY, NUL,             NUL, NUL,           CMP AbsoluteX, DEC AbsoluteX, NUL,
  CPX Immediate, SBC IndirectX, NUL,           NUL, CPX ZeroPage,   SBC ZeroPage,  INC ZeroPage,  NUL, INX Implied, SBC Immediate, NOP Implied,     NUL, CPX Absolute,  SBC Absolute,  INC Absolute,  NUL,
  BEQ Relative,  SBC IndirectY, NUL,           NUL, NUL,            SBC ZeroPageX, INC ZeroPageX, NUL, SED Implied, SBC AbsoluteY, NUL,             NUL, NUL,           SBC AbsoluteX, INC AbsoluteX, NUL
]

/-- Table lookup by opcode byte (the array index of Cpu::step). -/
def decode (opcode : Nat) : Mnemonics :=
  OPCODES.getD opcode Mnemonics.NUL

set_option maxRecDepth 8000 in
/-- Every decoded byte below 256 names a decode-table entry. -/
theorem decode_mem (n : Nat) (h : n < 256) : decode n ∈ OPCODES := by
  have hlen : n < OPCODES.length := by
    have h2 : OPCODES.length = 256 := rfl
    omega
  have hg := List.get_mem OPCODES n hlen
  have he : OPCODES.get ⟨n, hlen⟩ = decode n := by
    rw [decode, List.getD_eq_get?, List.get?_eq_get hlen]
    rfl
  rw [he] at hg
  exact hg

/-- The Cpu of src/cpu/mod.rs: owned memory, register file, and the
accumulated cycle counter. -/
structure Cpu where
  memory : Mem
  register : Register
  cycles : Nat

/-- Cpu::new -/
def Cpu.new (memory : Mem) : Cpu :=
  { memory := memory, register := Register.new, cycles := 0 }

/-- Cpu::cold_reset of src/cpu/mod.rs, including the two shadowing
rebindings that discard the reset-vector bytes just read and pin the
program counter start at 0x0400. -/
def Cpu.cold_reset (c : Cpu) : Cpu :=
  let pc_high := c.memory 0xfffd
  let pc_low := c.memory 0xfffc
  let pc_high := 0x04
  let pc_low := 0x00
  let r := { c.register with a := 0x00, x := 0x00, y := 0x00 }
  let r := r.set_p 0b00100100
  let r := r.set_pc ((pc_high <<< 8) + pc_low)
  { c with register := r }

/-- Cpu::warm_reset of src/cpu/mod.rs. -/
def Cpu.warm_reset (c : Cpu) : Cpu :=
  let pc_high := c.memory 0xfffd
  let pc_low := c.memory 0xfffc
  let r := c.register.set_interrupt_bit true
  let r := r.set_pc ((pc_high <<< 8) + pc_low)
  { c with register := r }

/-- Cpu::step: fetch the opcode byte at PC (post-incrementing PC), index
the decode table, run the handler, accumulate its cycles, and return
true.  The none outcome is the panic raised on a NUL table entry. -/
def Cpu.step (c : Cpu) : Option (Bool × Cpu) :=
  let opcode := c.memory c.register.pc
  let r := c.register.increment_pc
  match (decode opcode).handle c.memory r with
  | none => none
  | some (m, r, cycles) =>
      some (true, { memory := m, register := r, cycles := c.cycles + cycles })

/-! Bitwise helper facts used throughout the development. -/

theorem lor_land_distrib (a b c : Nat) : (a ||| b) &&& c = (a &&& c) ||| (b &&& c) := by
  apply Nat.eq_of_testBit_eq
  intro i
  simp only [Nat.testBit_land, Nat.testBit_lor]
  cases a.testBit i <;> cases b.testBit i <;> cases c.testBit i <;> rfl

theorem lor_land_self (a b : Nat) : (a ||| b) &&& b = b := by
  apply Nat.eq_of_testBit_eq
  intro i
  simp only [Nat.testBit_land, Nat.testBit_lor]
  cases a.testBit i <;> cases b.testBit i <;> rfl

theorem land_land_assoc (a b c : Nat) : (a &&& b) &&& c = a &&& (b &&& c) := by
  apply Nat.eq_of_testBit_eq
  intro i
  simp only [Nat.testBit_land]
  cases a.testBit i <;> cases b.testBit i <;> cases c.testBit i <;> rfl

theorem lor_eq_self_of_land (a b : Nat) (h : a &&& b = b) : a ||| b = a := by
  apply Nat.eq_of_testBit_eq
  intro i
  have hb := congrArg (fun t => t.testBit i) h
  simp only [Nat.testBit_land] at hb
  simp only [Nat.testBit_lor]
  cases ha : a.testBit i <;> cases hbi : b.testBit i <;> simp_all

theorem land_ff00 (a : Nat) : a &&& 0xff00 = a / 256 % 256 * 256 := by
  have h1 : a / 256 % 256 * 256 = (a >>> 8 % 2 ^ 8) <<< 8 := by
    rw [Nat.shiftLeft_eq, Nat.shiftRight_eq_div_pow]
    norm_num
  rw [h1]
  apply Nat.eq_of_testBit_eq
  intro i
  rw [Nat.testBit_land, Nat.testBit_shiftLeft, Nat.testBit_mod_two_pow,
    Nat.testBit_shiftRight]
  rcases lt_or_ge i 8 with h | h
  · have hz : (0xff00 : Nat).testBit i = false := by
      interval_cases i <;> decide
    have h8 : decide (8 ≤ i) = false := by simp; omega
    simp [hz, h8]
  · rcases lt_or_ge i 16 with h2 | h2
    · have ho : (0xff00 : Nat).testBit i = true := by
        interval_cases i <;> decide
      have h8 : decide (8 ≤ i) = true := by simp [h]
      have h7 : decide (i - 8 < 8) = true := by simp; omega
      have hi : 8 + (i - 8) = i := by omega
      simp [ho, h8, h7, hi]
    · have hz : (0xff00 : Nat).testBit i = false := by
        apply Nat.testBit_lt_two_pow
        calc (0xff00 : Nat) < 2 ^ 16 := by norm_num
        _ ≤ 2 ^ i := Nat.pow_le_pow_right (by norm_num) h2
      have h7 : decide (i - 8 < 8) = false := by simp; omega
      simp [hz, h7]

theorem land_ff00_mod (a : Nat) : a &&& 0xff00 = (a % 65536) &&& 0xff00 := by
  rw [land_ff00, land_ff00]
  omega

/-! Claim C1 — cold_reset. -/

/-- The failing memory image for C1: a reset vector pointing at 0x1234. -/
def c1Mem : Mem := fun i =>
  if i = 0xfffc then 0x34 else if i = 0xfffd then 0x12 else 0

/-- C1: the claim says cold_reset loads PC from the little-endian reset
vector at 0xFFFC/0xFFFD.  The code reads the vector and then shadows the
two bytes with the constants 0x04/0x00, so PC is pinned at 0x0400 and the
vector 0x1234 is ignored; A, X, Y, P are set as claimed, S is 0xFF on a
fresh Cpu (from Register::new), and cold_reset itself leaves S untouched. -/
theorem c1_cold_reset_pins_pc :
    (Cpu.cold_reset (Cpu.new c1Mem)).register.pc = 0x0400 ∧
    (Cpu.cold_reset (Cpu.new c1Mem)).register.pc ≠
      c1Mem 0xfffc + 256 * c1Mem 0xfffd ∧
    (Cpu.cold_reset (Cpu.new c1Mem)).register.a = 0 ∧
    (Cpu.cold_reset (Cpu.new c1Mem)).register.x = 0 ∧
    (Cpu.cold_reset (Cpu.new c1Mem)).register.y = 0 ∧
    (Cpu.cold_reset (Cpu.new c1Mem)).register.p = 0b00100100 ∧
    (Cpu.cold_reset (Cpu.new c1Mem)).register.s = 0xFF ∧
    (Cpu.cold_reset
      { memory := c1Mem, register := Register.new.set_s 0x12, cycles := 0 }
    ).register.s = 0x12 := by
  decide

/-! Claim C2 — illegal opcodes and the step outcome. -/

/-- Dispatching a mnemonic aborts (the panic of the NUL arm) exactly when
the mnemonic is NUL. -/
theorem handle_none_iff (mn : Mnemonics) (m : Mem) (r : Register) :
    mn.handle m r = none ↔ mn = Mnemonics.NUL := by
  cases mn <;> simp [Mnemonics.handle]

/-- A memory whose byte at the reset program counter 0x0600 is the
illegal opcode 0x02. -/
def c2Mem : Mem := fun i => if i = 0x0600 then 0x02 else 0

/-- C2 counterexample: the claim says an illegal opcode is not fatal to
the process and that the dispatcher returns a Fatal outcome.  On the
code, opcode 0x02 decodes to NUL and the handler panics (modelled as
none): no outcome is returned at all, and no Fatal variant exists —
Cpu::step returns a plain bool that is always true. -/
theorem c2_illegal_opcode_is_panic :
    Cpu.step (Cpu.new c2Mem) = none ∧ decode (c2Mem 0x0600) = Mnemonics.NUL :=
  ⟨rfl, rfl⟩

/-- C2 amended: executing one step panics (aborting the process) exactly
when the opcode byte at PC has no decode-table mapping; for every legal
opcode the step returns normally with the constant true and its cycle
count added to the running total. -/
theorem c2_step_returns_iff_legal (c : Cpu) :
    (Cpu.step c = none ↔ decode (c.memory c.register.pc) = Mnemonics.NUL) ∧
    (decode (c.memory c.register.pc) ≠ Mnemonics.NUL →
      ∃ m2 r2 n, Cpu.step c =
        some (true, { memory := m2, register := r2, cycles := c.cycles + n })) := by
  have key := handle_none_iff (decode (c.memory c.register.pc))
    c.memory c.register.increment_pc
  rcases h : (decode (c.memory c.register.pc)).handle c.memory c.register.increment_pc
    with _ | ⟨m2, r2, n⟩
  · rw [h] at key
    constructor
    · simp only [Cpu.step, h]
      simpa using key
    · intro hne
      exact absurd (key.mp rfl) hne
  · rw [h] at key
    constructor
    · constructor
      · intro hco
        simp only [Cpu.step, h] at hco
        exact absurd hco (by simp)
      · intro hnul
        have hco := key.mpr hnul
        exact absurd hco (by simp)
    · intro _
      refine ⟨m2, r2, n, ?_⟩
      simp only [Cpu.step, h]

/-- Witness for the legal-opcode side of C2 at a concrete machine. -/
theorem c2_step_returns_iff_legal_witness :
    decode (c1Mem (Cpu.new c1Mem).register.pc) ≠ Mnemonics.NUL ∧
    ∃ m2 r2 n, Cpu.step (Cpu.new c1Mem) =
      some (true, { memory := m2, register := r2, cycles := 0 + n }) :=
  ⟨fun h => Mnemonics.noConfusion h,
   (c2_step_returns_iff_legal (Cpu.new c1Mem)).2
     (fun h => Mnemonics.noConfusion h)⟩

/-! Claim C3 — zero-page pointer wrap for IndirectX / IndirectY. -/

/-- Memory for C3: pointer low byte 0x05 at 0x00FF, byte 0x01 at 0x0100,
byte 0x77 at 0x0000.  Wrap-around would make the pointer 0x7705; the
code reads the high byte from 0x0100 and produces 0x0105. -/
def c3Mem : Mem := fun i =>
  if i = 0xff then 0x05 else if i = 0x100 then 0x01 else
  if i = 0x00 then 0x77 else 0

/-- C3 counterexample: with the pointer low byte at 0x00FF (operand 0xFF,
X = 0, Y = 0), both IndirectX and IndirectY fetch the pointer high byte
from 0x0100, not from 0x0000 as the claim states. -/
theorem c3_pointer_high_not_wrapped :
    (indirect_x c3Mem Register.new 0xff).address = 0x0105 ∧
    (indirect_x c3Mem Register.new 0xff).address ≠
      c3Mem 0xff + (c3Mem 0x00 <<< 8) ∧
    (indirect_y c3Mem Register.new 0xff).address = 0x0105 ∧
    (indirect_y c3Mem Register.new 0xff).address ≠
      (c3Mem 0xff + (c3Mem 0x00 <<< 8) + Register.new.y) &&& 0xffff := by
  decide

/-- C3 amended: for IndirectX (resp. IndirectY), when the zero-page
pointer low byte sits at 0x00FF, the pointer high byte is fetched from
the next linear address 0x0100 — never wrapped back to 0x0000. -/
theorem c3_zero_page_pointer_no_wrap (m : Mem) (r : Register) (operand : Nat)
    (hx : (operand + r.x) &&& 0xff = 0xff) (hy : operand &&& 0xff = 0xff) :
    (indirect_x m r operand).address = m 0xff + (m 0x100 <<< 8) ∧
    (indirect_y m r operand).address =
      (m 0xff + (m 0x100 <<< 8) + r.y) &&& 0xffff := by
  constructor
  · show m ((operand + r.x) &&& 0xff) + (m (((operand + r.x) &&& 0xff) + 1) <<< 8)
      = m 0xff + (m 0x100 <<< 8)
    rw [hx]
  · show (m (operand &&& 0xff) + (m ((operand &&& 0xff) + 1) <<< 8) + r.y) &&& 0xffff
      = (m 0xff + (m 0x100 <<< 8) + r.y) &&& 0xffff
    rw [hy]

/-- Witness for C3 amended at the concrete counterexample memory. -/
theorem c3_zero_page_pointer_no_wrap_witness :
    (indirect_x c3Mem Register.new 0xff).address =
      c3Mem 0xff + (c3Mem 0x100 <<< 8) ∧
    (indirect_y c3Mem Register.new 0xff).address =
      (c3Mem 0xff + (c3Mem 0x100 <<< 8) + Register.new.y) &&& 0xffff :=
  c3_zero_page_pointer_no_wrap c3Mem Register.new 0xff (by decide) (by decide)

/-! Claim C5 — PHP forces bits 4 and 5 in the pushed byte. -/

/-- C5: for every status byte P, PHP writes P | 0x30 at the stack slot
0x0100 + S — bits 4 (B) and 5 (hardwired) are forced to 1 in the pushed
byte whatever their current values in P — then decrements S; 3 cycles. -/
theorem c5_php_pushes_p_with_b_and_bit5 (m : Mem) (r : Register) :
    (Insn.php m r).1 (r.s + 0x100) = r.p ||| 0b00110000 ∧
    (Insn.php m r).1 (r.s + 0x100) &&& 0b00110000 = 0b00110000 ∧
    (Insn.php m r).2.1 = r.push_s ∧
    (Insn.php m r).2.2 = 3 := by
  have h1 : (Insn.php m r).1 (r.s + 0x100) = r.p ||| 0b00110000 := by
    simp [Insn.php, stack_push, writeMem]
  refine ⟨h1, ?_, rfl, rfl⟩
  rw [h1]
  exact lor_land_self r.p 0b00110000

/-! Claim C6 — binary-mode ALU addition. -/

/-- C6: in binary mode alu::add returns the low 8 bits of
a + b + carry_in, the carry is the 9th bit, and the overflow flag is the
signed i8 sum escaping [-128, 127]. -/
theorem c6_binary_add_correct (a b : Nat) (carry_in : Bool)
    (ha : a < 256) (hb : b < 256) :
    (Alu.add a b carry_in false).value
        = (a + b + (if carry_in then 1 else 0)) % 256 ∧
    ((Alu.add a b carry_in false).carry = true ↔
        256 ≤ a + b + (if carry_in then 1 else 0)) ∧
    ((Alu.add a b carry_in false).overflow = true ↔
        (Alu.i8OfU8 a + Alu.i8OfU8 b + (if carry_in then 1 else 0) < -128 ∨
         Alu.i8OfU8 a + Alu.i8OfU8 b + (if carry_in then 1 else 0) > 127)) := by
  cases carry_in <;>
    simp only [Alu.add, Alu.calculate_addition_result_in_proper_math_mode,
      Alu.bin_add, Alu.calculate_overflow_bit, Alu.bin_overflow,
      Alu.calculate_nz_bits, Alu.i8OfU8, Bool.not_false, Bool.false_eq_true,
      Bool.true_eq_false, if_true, if_false, ite_true, ite_false,
      Bool.true_or, decide_eq_true_iff, Bool.or_eq_true] <;>
    exact ⟨by omega, by omega, Iff.rfl⟩

/-- Witness for C6 at the signed-overflow scenario A=0x80 plus 0xFF. -/
theorem c6_binary_add_correct_witness :
    (Alu.add 0x80 0xFF false false).value = (0x80 + 0xFF + 0) % 256 ∧
    ((Alu.add 0x80 0xFF false false).carry = true ↔ 256 ≤ 0x80 + 0xFF + 0) ∧
    ((Alu.add 0x80 0xFF false false).overflow = true ↔
        (Alu.i8OfU8 0x80 + Alu.i8OfU8 0xFF + 0 < -128 ∨
         Alu.i8OfU8 0x80 + Alu.i8OfU8 0xFF + 0 > 127)) :=
  c6_binary_add_correct 0x80 0xFF false (by decide) (by decide)

/-! Claim C7 — decimal-mode ALU addition on valid BCD operands. -/

/-- One Boolean test case of the decimal-addition table: for the packed
BCD operands encoding a and b, decimal-mode alu::add yields the packed
encoding of (a + b + carry) mod 100, a carry exactly on decimal
overflow, and Z and N drawn from the final byte. -/
def c7chk (a b : Nat) (c : Bool) : Bool :=
  let s := a + b + (if c then 1 else 0)
  let r := Alu.add (a / 10 * 16 + a % 10) (b / 10 * 16 + b % 10) c true
  (r.value == s % 100 / 10 * 16 + s % 100 % 10) &&
  (r.carry == decide (100 ≤ s)) &&
  (r.zero == decide (r.value = 0)) &&
  (r.negative == decide (0x7F < r.value))

set_option maxRecDepth 8000 in
set_option maxHeartbeats 2000000 in
/-- Exhaustive evaluation of the decimal-addition table over every pair
of two-digit operands and both incoming carries. -/
theorem c7chk_all :
    ((List.range 100).all fun a => (List.range 100).all fun b =>
      c7chk a b true && c7chk a b false) = true := rfl

/-- Unpacking one Boolean test case into the four claimed properties. -/
theorem c7chk_sound (a b : Nat) (c : Bool) (h : c7chk a b c = true) :
    (Alu.add (a / 10 * 16 + a % 10) (b / 10 * 16 + b % 10) c true).value
        = (a + b + (if c then 1 else 0)) % 100 / 10 * 16
          + (a + b + (if c then 1 else 0)) % 100 % 10 ∧
    ((Alu.add (a / 10 * 16 + a % 10) (b / 10 * 16 + b % 10) c true).carry = true ↔
      100 ≤ a + b + (if c then 1 else 0)) ∧
    ((Alu.add (a / 10 * 16 + a % 10) (b / 10 * 16 + b % 10) c true).zero = true ↔
      (Alu.add (a / 10 * 16 + a % 10) (b / 10 * 16 + b % 10) c true).value = 0) ∧
    ((Alu.add (a / 10 * 16 + a % 10) (b / 10 * 16 + b % 10) c true).negative = true ↔
      0x7F < (Alu.add (a / 10 * 16 + a % 10) (b / 10 * 16 + b % 10) c true).value) := by
  simp only [c7chk, Bool.and_eq_true, beq_iff_eq] at h
  obtain ⟨⟨⟨h1, h2⟩, h3⟩, h4⟩ := h
  refine ⟨h1, ?_, ?_, ?_⟩
  · rw [h2, decide_eq_true_eq]
  · rw [h3, decide_eq_true_eq]
  · rw [h4, decide_eq_true_eq]

/-- C7: for operands whose nibbles are decimal digits (enumerated as
a / 10 and a % 10 for a < 100), decimal-mode alu::add returns the packed
BCD encoding of the decimal sum mod 100, the carry is the decimal sum
exceeding 99, and Z and N come from the final BCD byte; the literal
scenario 0x15 + 0x27 with carry clear gives 0x42 with all flags clear. -/
theorem c7_bcd_add_correct :
    (∀ a < 100, ∀ b < 100, ∀ c : Bool,
      (Alu.add (a / 10 * 16 + a % 10) (b / 10 * 16 + b % 10) c true).value
          = (a + b + (if c then 1 else 0)) % 100 / 10 * 16
            + (a + b + (if c then 1 else 0)) % 100 % 10 ∧
      ((Alu.add (a / 10 * 16 + a % 10) (b / 10 * 16 + b % 10) c true).carry = true ↔
        100 ≤ a + b + (if c then 1 else 0)) ∧
      ((Alu.add (a / 10 * 16 + a % 10) (b / 10 * 16 + b % 10) c true).zero = true ↔
        (Alu.add (a / 10 * 16 + a % 10) (b / 10 * 16 + b % 10) c true).value = 0) ∧
      ((Alu.add (a / 10 * 16 + a % 10) (b / 10 * 16 + b % 10) c true).negative = true ↔
        0x7F < (Alu.add (a / 10 * 16 + a % 10) (b / 10 * 16 + b % 10) c true).value)) ∧
    Alu.add 0x15 0x27 false true
      = { value := 0x42, negative := false, overflow := false,
          zero := false, carry := false } := by
  refine ⟨?_, rfl⟩
  intro a ha b hb c
  have h1 : (c7chk a b true && c7chk a b false) = true :=
    List.all_eq_true.mp
      (List.all_eq_true.mp c7chk_all a (List.mem_range.mpr ha))
      b (List.mem_range.mpr hb)
  rw [Bool.and_eq_true] at h1
  cases c
  · exact c7chk_sound a b false h1.2
  · exact c7chk_sound a b true h1.1

/-! Claim C10 — the hardwired bit 5 of P. -/

/-- The P-mutating operations of the register file: the seven individual
flag setters and the full write set_p. -/
inductive RegOp where
  | setNegative (b : Bool)
  | setOverflow (b : Bool)
  | setDecimal (b : Bool)
  | setBreakFlag (b : Bool)
  | setInterrupt (b : Bool)
  | setZero (b : Bool)
  | setCarry (b : Bool)
  | setP (v : Nat)

/-- Interpret one P-mutating operation on the register file. -/
def applyRegOp (r : Register) : RegOp → Register
  | .setNegative b => r.set_negative_bit b
  | .setOverflow b => r.set_overflow_bit b
  | .setDecimal b => r.set_decimal_bit b
  | .setBreakFlag b => r.set_break_bit b
  | .setInterrupt b => r.set_interrupt_bit b
  | .setZero b => r.set_zero_bit b
  | .setCarry b => r.set_carry_bit b
  | .setP v => r.set_p v

theorem lor_preserves_land (p M c : Nat) (h : p &&& c = c) :
    (p ||| M) &&& c = c := by
  rw [lor_land_distrib, h]
  apply lor_eq_self_of_land
  apply Nat.eq_of_testBit_eq
  intro i
  simp only [Nat.testBit_land]
  cases c.testBit i <;> cases M.testBit i <;> rfl

theorem land_preserves_land (p M c : Nat) (hM : M &&& c = c) (h : p &&& c = c) :
    (p &&& M) &&& c = c := by
  rw [land_land_assoc, hM]
  exact h

theorem applyRegOp_preserves_bit5 (r : Register) (op : RegOp)
    (h : r.p &&& 0b00100000 = 0b00100000) :
    (applyRegOp r op).p &&& 0b00100000 = 0b00100000 := by
  cases op with
  | setNegative b =>
      cases b
      · exact land_preserves_land r.p 0b01111111 _ (by decide) h
      · exact lor_preserves_land r.p 0b10000000 _ h
  | setOverflow b =>
      cases b
      · exact land_preserves_land r.p 0b10111111 _ (by decide) h
      · exact lor_preserves_land r.p 0b01000000 _ h
  | setDecimal b =>
      cases b
      · exact land_preserves_land r.p 0b11110111 _ (by decide) h
      · exact lor_preserves_land r.p 0b00001000 _ h
  | setBreakFlag b =>
      cases b
      · exact land_preserves_land r.p 0b11101111 _ (by decide) h
      · exact lor_preserves_land r.p 0b00010000 _ h
  | setInterrupt b =>
      cases b
      · exact land_preserves_land r.p 0b11111011 _ (by decide) h
      · exact lor_preserves_land r.p 0b00000100 _ h
  | setZero b =>
      cases b
      · exact land_preserves_land r.p 0b11111101 _ (by decide) h
      · exact lor_preserves_land r.p 0b00000010 _ h
  | setCarry b =>
      cases b
      · exact land_preserves_land r.p 0b11111110 _ (by decide) h
      · exact lor_preserves_land r.p 0b00000001 _ h
  | setP v =>
      exact lor_land_self v 0b00100000

/-- C10: the full P write stores value | 0b0010_0000, and every sequence
of flag setters and P writes preserves a set bit 5 of P, so every state
reached from a bit-5-set state through the register file's P-mutators
reads P with bit 5 set. -/
theorem c10_bit5_invariant :
    (∀ (r : Register) (v : Nat), (r.set_p v).p = v ||| 0b00100000) ∧
    (∀ (ops : List RegOp) (r : Register),
      r.p &&& 0b00100000 = 0b00100000 →
      (ops.foldl applyRegOp r).p &&& 0b00100000 = 0b00100000) := by
  refine ⟨fun r v => rfl, ?_⟩
  intro ops
  induction ops with
  | nil => intro r h; exact h
  | cons op ops ih =>
      intro r h
      exact ih (applyRegOp r op) (applyRegOp_preserves_bit5 r op h)

/-- Witness for C10 on a concrete mutation sequence. -/
theorem c10_bit5_invariant_witness :
    ([RegOp.setP 0b11011111, RegOp.setCarry true, RegOp.setNegative false,
      RegOp.setBreakFlag false].foldl applyRegOp Register.new).p
      &&& 0b00100000 = 0b00100000 :=
  c10_bit5_invariant.2 _ Register.new (by decide)

/-! Claim C4 — BRK semantics. -/

theorem writeMem_eq (m : Mem) (a v i : Nat) (h : i = a) : writeMem m a v i = v := by
  rw [h]; exact if_pos rfl

theorem writeMem_ne (m : Mem) (a v i : Nat) (h : i ≠ a) : writeMem m a v i = m i := if_neg h

theorem writeMem3_read (m : Mem) (a1 v1 a2 v2 a3 v3 i : Nat) :
    writeMem (writeMem (writeMem m a1 v1) a2 v2) a3 v3 i
      = if i = a3 then v3 else if i = a2 then v2 else if i = a1 then v1 else m i := by
  simp [writeMem]

theorem lor16_eq_lor48_of_bit5 (p : Nat) (h : p &&& 0b00100000 = 0b00100000) :
    p ||| 0b00010000 = p ||| 0b00110000 := by
  have h32 : p ||| 0b00100000 = p := lor_eq_self_of_land p 0b00100000 h
  calc p ||| 0b00010000 = (p ||| 0b00100000) ||| 0b00010000 := by rw [h32]
    _ = p ||| (0b00100000 ||| 0b00010000) := Nat.lor_assoc p _ _
    _ = p ||| 0b00110000 := by
          rw [show (0b00100000 ||| 0b00010000 : Nat) = 0b00110000 from by decide]

set_option maxRecDepth 8000 in
set_option maxHeartbeats 2000000 in
theorem c4_brk_spec (c : Cpu)
    (hop : c.memory c.register.pc = 0x00)
    (hpc : c.register.pc < 65536) (hs : c.register.s < 256)
    (h5 : c.register.p &&& 0b00100000 = 0b00100000) :
    ∃ c2, Cpu.step c = some (true, c2) ∧
      c2.memory (0x100 + c.register.s) = (c.register.pc + 2) % 65536 / 256 ∧
      c2.memory (0x100 + (c.register.s + 255) % 256) = (c.register.pc + 2) % 256 ∧
      c2.memory (0x100 + (c.register.s + 254) % 256)
        = c.register.p ||| 0b00110000 ∧
      c2.register.pc = c.memory 0xfffe + 256 * c.memory 0xffff ∧
      c2.register.p &&& 0b00000100 = 0b00000100 ∧
      c2.register.s = (c.register.s + 253) % 256 ∧
      c2.cycles = c.cycles + 7 := by
  have h256 : (2 : Nat) ^ 8 = 256 := by norm_num
  have hbrk : Insn.brk c.memory c.register.increment_pc =
      (writeMem (writeMem (writeMem c.memory
          (c.register.s + 0x100)
          ((((c.register.pc + 1) % 65536 + 1) % 65536) >>> 8 % 256))
          ((c.register.s + 255) % 256 + 0x100)
          (((c.register.pc + 1) % 65536 + 1) % 65536 % 256))
          (((c.register.s + 255) % 256 + 255) % 256 + 0x100)
          (c.register.p ||| 0b00010000),
       { pc := ((writeMem (writeMem (writeMem c.memory
            (c.register.s + 0x100)
            ((((c.register.pc + 1) % 65536 + 1) % 65536) >>> 8 % 256))
            ((c.register.s + 255) % 256 + 0x100)
            (((c.register.pc + 1) % 65536 + 1) % 65536 % 256))
            (((c.register.s + 255) % 256 + 255) % 256 + 0x100)
            (c.register.p ||| 0b00010000)) 0xffff <<< 8) +
           (writeMem (writeMem (writeMem c.memory
            (c.register.s + 0x100)
            ((((c.register.pc + 1) % 65536 + 1) % 65536) >>> 8 % 256))
            ((c.register.s + 255) % 256 + 0x100)
            (((c.register.pc + 1) % 65536 + 1) % 65536 % 256))
            (((c.register.s + 255) % 256 + 255) % 256 + 0x100)
            (c.register.p ||| 0b00010000)) 0xfffe,
         s := (((c.register.s + 255) % 256 + 255) % 256 + 255) % 256,
         a := c.register.a, x := c.register.x, y := c.register.y,
         p := c.register.p ||| 0b00010000 ||| 0b00000100 }, 7) := rfl
  refine ⟨{ memory := (Insn.brk c.memory c.register.increment_pc).1,
            register := (Insn.brk c.memory c.register.increment_pc).2.1,
            cycles := c.cycles + (Insn.brk c.memory c.register.increment_pc).2.2 },
          ?_, ?_, ?_, ?_, ?_, ?_, ?_, ?_⟩
  · simp only [Cpu.step, hop]
    rfl
  · show (Insn.brk c.memory c.register.increment_pc).1 (0x100 + c.register.s) = _
    rw [hbrk]
    simp only [writeMem3_read, Nat.shiftRight_eq_div_pow, h256]
    split_ifs <;> first | omega | (exfalso; omega)
  · show (Insn.brk c.memory c.register.increment_pc).1
      (0x100 + (c.register.s + 255) % 256) = _
    rw [hbrk]
    simp only [writeMem3_read]
    split_ifs <;> first | omega | (exfalso; omega)
  · show (Insn.brk c.memory c.register.increment_pc).1
      (0x100 + (c.register.s + 254) % 256) = _
    rw [hbrk]
    simp only [writeMem3_read]
    split_ifs <;>
      first
        | (exfalso; omega)
        | exact lor16_eq_lor48_of_bit5 c.register.p h5
  · show (Insn.brk c.memory c.register.increment_pc).2.1.pc = _
    rw [hbrk]
    simp only [writeMem3_read, Nat.shiftLeft_eq, h256]
    split_ifs <;> first | omega | (exfalso; omega)
  · show (Insn.brk c.memory c.register.increment_pc).2.1.p &&& 0b00000100 = _
    rw [hbrk]
    exact lor_land_self _ 0b00000100
  · show (Insn.brk c.memory c.register.increment_pc).2.1.s = _
    rw [hbrk]
    show (((c.register.s + 255) % 256 + 255) % 256 + 255) % 256 = _
    omega
  · rfl

/-- The memory image of the BRK round-trip scenario: IRQ vector
(0x20, 0x04) at 0xFFFE/0xFFFF and the BRK opcode 0x00 everywhere else. -/
def c4wMem : Mem := fun i =>
  if i = 0xfffe then 0x20 else if i = 0xffff then 0x04 else 0

/-- The machine of the BRK scenario: PC 0x0305, fresh register file. -/
def c4wCpu : Cpu :=
  { memory := c4wMem, register := Register.new.set_pc 0x0305, cycles := 0 }

/-- Witness for C4 at the literal BRK scenario of the specification. -/
theorem c4_brk_spec_witness :
    ∃ c2, Cpu.step c4wCpu = some (true, c2) ∧
      c2.memory (0x100 + c4wCpu.register.s)
        = (c4wCpu.register.pc + 2) % 65536 / 256 ∧
      c2.memory (0x100 + (c4wCpu.register.s + 255) % 256)
        = (c4wCpu.register.pc + 2) % 256 ∧
      c2.memory (0x100 + (c4wCpu.register.s + 254) % 256)
        = c4wCpu.register.p ||| 0b00110000 ∧
      c2.register.pc = c4wCpu.memory 0xfffe + 256 * c4wCpu.memory 0xffff ∧
      c2.register.p &&& 0b00000100 = 0b00000100 ∧
      c2.register.s = (c4wCpu.register.s + 253) % 256 ∧
      c2.cycles = c4wCpu.cycles + 7 :=
  c4_brk_spec c4wCpu (by decide) (by decide) (by decide) (by decide)

/-! Claim C9 — the Relative addressing mode. -/

set_option maxHeartbeats 800000 in
/-- C9: resolving Relative (a total function here, mirroring the release
wrap-around of the i16 addition and the i16-to-usize sign extension, so no
panic occurs) yields an address congruent mod 2^16 to PC-after-fetch plus
the sign-extended operand, and in_bounds holds exactly when the target's
high byte equals the high byte of PC-after-fetch. -/
theorem c9_relative_mode_wraps (r : Register) (operand : Nat)
    (hpc : r.pc < 65536) (hop : operand < 256) :
    ((relative r operand).address : Int) % 65536
        = ((r.pc : Int) +
            (if operand > 0x7f then (operand : Int) - 0x100 else (operand : Int)))
          % 65536 ∧
    ((relative r operand).in_bounds = true ↔
      (relative r operand).address % 65536 / 256 = r.pc / 256) := by
  have h64 : (2 : Int) ^ 64 = 18446744073709551616 := by norm_num
  constructor
  · simp only [relative, usizeOfI16, wrapI16, i16OfU16, h64]
    split_ifs <;> omega
  · simp only [relative, usizeOfI16, wrapI16, i16OfU16, h64, beq_iff_eq]
    rw [land_ff00_mod ((((if r.pc < 0x8000 then (r.pc : Int) else (r.pc : Int) - 0x10000) +
          (if operand > 0x7f then (operand : Int) - 0x100 else (operand : Int)) + 0x8000)
          % 0x10000 - 0x8000) % 18446744073709551616).toNat, land_ff00, land_ff00]
    split_ifs <;> constructor <;> intro h <;> omega

/-- Witness for C9 at the page-crossing branch scenario: PC-after-fetch
0x0605 and operand 0x80 (-128). -/
theorem c9_relative_mode_wraps_witness :
    (((relative (Register.new.set_pc 0x0605) 0x80).address : Int) % 65536
        = (((Register.new.set_pc 0x0605).pc : Int) +
            (if (0x80 : Nat) > 0x7f then (0x80 : Int) - 0x100 else (0x80 : Int)))
          % 65536) ∧
    ((relative (Register.new.set_pc 0x0605) 0x80).in_bounds = true ↔
      (relative (Register.new.set_pc 0x0605) 0x80).address % 65536 / 256
        = (Register.new.set_pc 0x0605).pc / 256) :=
  c9_relative_mode_wraps (Register.new.set_pc 0x0605) 0x80 (by decide) (by decide)


/-! Claim C8 — the cycle-accounting formula. -/

/-- The addressing mode carried by a mnemonic (Implied for NUL). -/
def modeOf : Mnemonics → Addressing
  | .NUL => .Implied
  | .ADC mode | .AND mode | .ASL mode | .BCC mode | .BCS mode | .BEQ mode
  | .BIT mode | .BMI mode | .BNE mode | .BPL mode | .BRK mode | .BVC mode
  | .BVS mode | .CLC mode | .CLD mode | .CLI mode | .CLV mode | .CMP mode
  | .CPX mode | .CPY mode | .DEC mode | .DEX mode | .DEY mode | .EOR mode
  | .INC mode | .INX mode | .INY mode | .JMP mode | .JSR mode | .LDA mode
  | .LDX mode | .LDY mode | .LSR mode | .NOP mode | .ORA mode | .PHA mode
  | .PHP mode | .PLA mode | .PLP mode | .ROL mode | .ROR mode | .RTI mode
  | .RTS mode | .SBC mode | .SEC mode | .SED mode | .SEI mode | .STA mode
  | .STX mode | .STY mode | .TAX mode | .TAY mode | .TSX mode | .TXA mode
  | .TXS mode | .TYA mode => mode

/-- The fixed addressing-cycle contribution of every mode: the cycles
field each resolver arm of addressing.rs returns. -/
def modeCycles : Addressing → Nat
  | .Implied => 0 | .Accumulator => 0 | .Immediate => 0 | .Relative => 1
  | .ZeroPage => 1 | .ZeroPageX => 2 | .ZeroPageY => 2 | .Absolute => 2
  | .AbsoluteX => 3 | .AbsoluteY => 3 | .Indirect => 4 | .IndirectX => 4
  | .IndirectY => 4

/-- Spec-side classifier: the read-style mnemonics, to which alone the
specification grants the page-cross penalty. -/
def specReadStyle : Mnemonics → Bool
  | .ADC _ | .AND _ | .CMP _ | .CPX _ | .CPY _ | .EOR _
  | .LDA _ | .LDX _ | .LDY _ | .ORA _ | .SBC _ => true
  | _ => false

/-- Spec-side classifier: the branch mnemonics. -/
def specIsBranch : Mnemonics → Bool
  | .BCC _ | .BCS _ | .BEQ _ | .BMI _ | .BNE _ | .BPL _ | .BVC _ | .BVS _ => true
  | _ => false

/-- Spec-side classifier: the indexed modes eligible for the penalty. -/
def specPenaltyMode : Addressing → Bool
  | .AbsoluteX | .AbsoluteY | .IndirectY => true
  | _ => false

/-- The fixed base cost each live handler charges per (mnemonic, mode):
the literal constants of the mnemonics.rs handler bodies. -/
def baseCost : Mnemonics → Nat
  | .NUL => 0
  | .ADC _ => 2 | .AND _ => 2 | .BIT _ => 2 | .CMP _ => 2 | .CPX _ => 2
  | .CPY _ => 2 | .EOR _ => 2 | .LDA _ => 2 | .LDX _ => 2 | .LDY _ => 2
  | .ORA _ => 2 | .SBC _ => 2
  | .ASL mode | .LSR mode | .ROL mode | .ROR mode =>
      if modeCycles mode = 0 then 2 else 4
  | .DEC _ => 4 | .INC _ => 4
  | .JMP _ => 1
  | .JSR _ => 4
  | .RTS _ => 6 | .RTI _ => 6
  | .BRK _ => 7
  | .PHA _ => 3 | .PHP _ => 3 | .PLA _ => 4 | .PLP _ => 4
  | .NOP _ => 2
  | .CLC _ => 2 | .CLD _ => 2 | .CLI _ => 2 | .CLV _ => 2
  | .SEC _ => 2 | .SED _ => 2 | .SEI _ => 2
  | .STA _ => 2 | .STX _ => 2 | .STY _ => 2
  | .DEX _ => 2 | .DEY _ => 2 | .INX _ => 2 | .INY _ => 2
  | .TAX _ => 2 | .TAY _ => 2 | .TSX _ => 2 | .TXA _ => 2 | .TXS _ => 2
  | .TYA _ => 2
  | .BCC _ => 2 | .BCS _ => 2 | .BEQ _ => 2 | .BMI _ => 2 | .BNE _ => 2
  | .BPL _ => 2 | .BVC _ => 2 | .BVS _ => 2

/-- The specification's page-cross penalty: one cycle for a read-style
mnemonic in an indexed penalty mode whose resolution left bounds. -/
def specPenalty (mn : Mnemonics) (m : Mem) (r : Register) : Nat :=
  if specReadStyle mn && specPenaltyMode (modeOf mn)
      && !((modeOf mn).read m r).1.in_bounds then 1 else 0

/-- The per-constructor side condition each decode-table pairing obeys:
read-style mnemonics never pair with Relative, JSR pairs with a
2-cycle mode, and the implied-handler mnemonics pair with 0-cycle modes. -/
def tableOk : Mnemonics → Bool
  | .ADC mode | .AND mode | .CMP mode | .CPX mode | .CPY mode | .EOR mode | .LDA mode | .LDX mode | .LDY mode | .ORA mode | .SBC mode =>
      !(mode == Addressing.Relative)
  | .JSR mode => modeCycles mode == 2
  | .CLC mode | .CLD mode | .CLI mode | .CLV mode | .SEC mode | .SED mode | .SEI mode | .DEX mode | .DEY mode | .INX mode | .INY mode | .TAX mode | .TAY mode | .TSX mode | .TXA mode | .TXS mode | .TYA mode | .NOP mode | .PHA mode | .PHP mode | .PLA mode | .PLP mode | .RTI mode | .RTS mode | .BRK mode =>
      modeCycles mode == 0
  | _ => true

set_option maxRecDepth 8000 in
/-- Evaluation of the side condition over the whole decode table. -/
theorem tableOk_all : OPCODES.all tableOk = true := rfl

/-- Every decode-table entry satisfies its side condition. -/
theorem tableOk_of_mem : ∀ mn ∈ OPCODES, tableOk mn = true :=
  List.all_eq_true.mp tableOk_all

theorem c8aux_ADC (mode : Addressing) (m : Mem) (r : Register)
    (h : tableOk (Mnemonics.ADC mode) = true) :
    ((Mnemonics.ADC mode).handle m r).map (fun t => t.2.2)
      = some (baseCost (Mnemonics.ADC mode)
          + modeCycles (modeOf (Mnemonics.ADC mode))
          + specPenalty (Mnemonics.ADC mode) m r) := by
  cases mode <;>
    first
      | exact Bool.noConfusion h
      | rfl
      | (simp only [Mnemonics.handle, Addressing.read, absolute_x, absolute_y,
         indirect_y, Option.map, specPenalty, specReadStyle, specPenaltyMode,
         modeOf, baseCost, modeCycles, Insn.adc, Insn.and, Insn.cmp, Insn.cpx,
         Insn.cpy, Insn.eor, Insn.lda, Insn.ldx, Insn.ldy, Insn.ora, Insn.sbc]
         <;> split <;> split <;> simp_all)

theorem c8aux_AND (mode : Addressing) (m : Mem) (r : Register)
    (h : tableOk (Mnemonics.AND mode) = true) :
    ((Mnemonics.AND mode).handle m r).map (fun t => t.2.2)
      = some (baseCost (Mnemonics.AND mode)
          + modeCycles (modeOf (Mnemonics.AND mode))
          + specPenalty (Mnemonics.AND mode) m r) := by
  cases mode <;>
    first
      | exact Bool.noConfusion h
      | rfl
      | (simp only [Mnemonics.handle, Addressing.read, absolute_x, absolute_y,
         indirect_y, Option.map, specPenalty, specReadStyle, specPenaltyMode,
         modeOf, baseCost, modeCycles, Insn.adc, Insn.and, Insn.cmp, Insn.cpx,
         Insn.cpy, Insn.eor, Insn.lda, Insn.ldx, Insn.ldy, Insn.ora, Insn.sbc]
         <;> split <;> split <;> simp_all)

theorem c8aux_CMP (mode : Addressing) (m : Mem) (r : Register)
    (h : tableOk (Mnemonics.CMP mode) = true) :
    ((Mnemonics.CMP mode).handle m r).map (fun t => t.2.2)
      = some (baseCost (Mnemonics.CMP mode)
          + modeCycles (modeOf (Mnemonics.CMP mode))
          + specPenalty (Mnemonics.CMP mode) m r) := by
  cases mode <;>
    first
      | exact Bool.noConfusion h
      | rfl
      | (simp only [Mnemonics.handle, Addressing.read, absolute_x, absolute_y,
         indirect_y, Option.map, specPenalty, specReadStyle, specPenaltyMode,
         modeOf, baseCost, modeCycles, Insn.adc, Insn.and, Insn.cmp, Insn.cpx,
         Insn.cpy, Insn.eor, Insn.lda, Insn.ldx, Insn.ldy, Insn.ora, Insn.sbc]
         <;> split <;> split <;> simp_all)

theorem c8aux_CPX (mode : Addressing) (m : Mem) (r : Register)
    (h : tableOk (Mnemonics.CPX mode) = true) :
    ((Mnemonics.CPX mode).handle m r).map (fun t => t.2.2)
      = some (baseCost (Mnemonics.CPX mode)
          + modeCycles (modeOf (Mnemonics.CPX mode))
          + specPenalty (Mnemonics.CPX mode) m r) := by
  cases mode <;>
    first
      | exact Bool.noConfusion h
      | rfl
      | (simp only [Mnemonics.handle, Addressing.read, absolute_x, absolute_y,
         indirect_y, Option.map, specPenalty, specReadStyle, specPenaltyMode,
         modeOf, baseCost, modeCycles, Insn.adc, Insn.and, Insn.cmp, Insn.cpx,
         Insn.cpy, Insn.eor, Insn.lda, Insn.ldx, Insn.ldy, Insn.ora, Insn.sbc]
         <;> split <;> split <;> simp_all)

theorem c8aux_CPY (mode : Addressing) (m : Mem) (r : Register)
    (h : tableOk (Mnemonics.CPY mode) = true) :
    ((Mnemonics.CPY mode).handle m r).map (fun t => t.2.2)
      = some (baseCost (Mnemonics.CPY mode)
          + modeCycles (modeOf (Mnemonics.CPY mode))
          + specPenalty (Mnemonics.CPY mode) m r) := by
  cases mode <;>
    first
      | exact Bool.noConfusion h
      | rfl
      | (simp only [Mnemonics.handle, Addressing.read, absolute_x, absolute_y,
         indirect_y, Option.map, specPenalty, specReadStyle, specPenaltyMode,
         modeOf, baseCost, modeCycles, Insn.adc, Insn.and, Insn.cmp, Insn.cpx,
         Insn.cpy, Insn.eor, Insn.lda, Insn.ldx, Insn.ldy, Insn.ora, Insn.sbc]
         <;> split <;> split <;> simp_all)

theorem c8aux_EOR (mode : Addressing) (m : Mem) (r : Register)
    (h : tableOk (Mnemonics.EOR mode) = true) :
    ((Mnemonics.EOR mode).handle m r).map (fun t => t.2.2)
      = some (baseCost (Mnemonics.EOR mode)
          + modeCycles (modeOf (Mnemonics.EOR mode))
          + specPenalty (Mnemonics.EOR mode) m r) := by
  cases mode <;>
    first
      | exact Bool.noConfusion h
      | rfl
      | (simp only [Mnemonics.handle, Addressing.read, absolute_x, absolute_y,
         indirect_y, Option.map, specPenalty, specReadStyle, specPenaltyMode,
         modeOf, baseCost, modeCycles, Insn.adc, Insn.and, Insn.cmp, Insn.cpx,
         Insn.cpy, Insn.eor, Insn.lda, Insn.ldx, Insn.ldy, Insn.ora, Insn.sbc]
         <;> split <;> split <;> simp_all)

theorem c8aux_LDA (mode : Addressing) (m : Mem) (r : Register)
    (h : tableOk (Mnemonics.LDA mode) = true) :
    ((Mnemonics.LDA mode).handle m r).map (fun t => t.2.2)
      = some (baseCost (Mnemonics.LDA mode)
          + modeCycles (modeOf (Mnemonics.LDA mode))
          + specPenalty (Mnemonics.LDA mode) m r) := by
  cases mode <;>
    first
      | exact Bool.noConfusion h
      | rfl
      | (simp only [Mnemonics.handle, Addressing.read, absolute_x, absolute_y,
         indirect_y, Option.map, specPenalty, specReadStyle, specPenaltyMode,
         modeOf, baseCost, modeCycles, Insn.adc, Insn.and, Insn.cmp, Insn.cpx,
         Insn.cpy, Insn.eor, Insn.lda, Insn.ldx, Insn.ldy, Insn.ora, Insn.sbc]
         <;> split <;> split <;> simp_all)

theorem c8aux_LDX (mode : Addressing) (m : Mem) (r : Register)
    (h : tableOk (Mnemonics.LDX mode) = true) :
    ((Mnemonics.LDX mode).handle m r).map (fun t => t.2.2)
      = some (baseCost (Mnemonics.LDX mode)
          + modeCycles (modeOf (Mnemonics.LDX mode))
          + specPenalty (Mnemonics.LDX mode) m r) := by
  cases mode <;>
    first
      | exact Bool.noConfusion h
      | rfl
      | (simp only [Mnemonics.handle, Addressing.read, absolute_x, absolute_y,
         indirect_y, Option.map, specPenalty, specReadStyle, specPenaltyMode,
         modeOf, baseCost, modeCycles, Insn.adc, Insn.and, Insn.cmp, Insn.cpx,
         Insn.cpy, Insn.eor, Insn.lda, Insn.ldx, Insn.ldy, Insn.ora, Insn.sbc]
         <;> split <;> split <;> simp_all)

theorem c8aux_LDY (mode : Addressing) (m : Mem) (r : Register)
    (h : tableOk (Mnemonics.LDY mode) = true) :
    ((Mnemonics.LDY mode).handle m r).map (fun t => t.2.2)
      = some (baseCost (Mnemonics.LDY mode)
          + modeCycles (modeOf (Mnemonics.LDY mode))
          + specPenalty (Mnemonics.LDY mode) m r) := by
  cases mode <;>
    first
      | exact Bool.noConfusion h
      | rfl
      | (simp only [Mnemonics.handle, Addressing.read, absolute_x, absolute_y,
         indirect_y, Option.map, specPenalty, specReadStyle, specPenaltyMode,
         modeOf, baseCost, modeCycles, Insn.adc, Insn.and, Insn.cmp, Insn.cpx,
         Insn.cpy, Insn.eor, Insn.lda, Insn.ldx, Insn.ldy, Insn.ora, Insn.sbc]
         <;> split <;> split <;> simp_all)

theorem c8aux_ORA (mode : Addressing) (m : Mem) (r : Register)
    (h : tableOk (Mnemonics.ORA mode) = true) :
    ((Mnemonics.ORA mode).handle m r).map (fun t => t.2.2)
      = some (baseCost (Mnemonics.ORA mode)
          + modeCycles (modeOf (Mnemonics.ORA mode))
          + specPenalty (Mnemonics.ORA mode) m r) := by
  cases mode <;>
    first
      | exact Bool.noConfusion h
      | rfl
      | (simp only [Mnemonics.handle, Addressing.read, absolute_x, absolute_y,
         indirect_y, Option.map, specPenalty, specReadStyle, specPenaltyMode,
         modeOf, baseCost, modeCycles, Insn.adc, Insn.and, Insn.cmp, Insn.cpx,
         Insn.cpy, Insn.eor, Insn.lda, Insn.ldx, Insn.ldy, Insn.ora, Insn.sbc]
         <;> split <;> split <;> simp_all)

theorem c8aux_SBC (mode : Addressing) (m : Mem) (r : Register)
    (h : tableOk (Mnemonics.SBC mode) = true) :
    ((Mnemonics.SBC mode).handle m r).map (fun t => t.2.2)
      = some (baseCost (Mnemonics.SBC mode)
          + modeCycles (modeOf (Mnemonics.SBC mode))
          + specPenalty (Mnemonics.SBC mode) m r) := by
  cases mode <;>
    first
      | exact Bool.noConfusion h
      | rfl
      | (simp only [Mnemonics.handle, Addressing.read, absolute_x, absolute_y,
         indirect_y, Option.map, specPenalty, specReadStyle, specPenaltyMode,
         modeOf, baseCost, modeCycles, Insn.adc, Insn.and, Insn.cmp, Insn.cpx,
         Insn.cpy, Insn.eor, Insn.lda, Insn.ldx, Insn.ldy, Insn.ora, Insn.sbc]
         <;> split <;> split <;> simp_all)

theorem c8aux_BIT (mode : Addressing) (m : Mem) (r : Register) :
    ((Mnemonics.BIT mode).handle m r).map (fun t => t.2.2)
      = some (baseCost (Mnemonics.BIT mode)
          + modeCycles (modeOf (Mnemonics.BIT mode))
          + specPenalty (Mnemonics.BIT mode) m r) := by
  cases mode <;> rfl

theorem c8aux_ASL (mode : Addressing) (m : Mem) (r : Register) :
    ((Mnemonics.ASL mode).handle m r).map (fun t => t.2.2)
      = some (baseCost (Mnemonics.ASL mode)
          + modeCycles (modeOf (Mnemonics.ASL mode))
          + specPenalty (Mnemonics.ASL mode) m r) := by
  cases mode <;> rfl

theorem c8aux_LSR (mode : Addressing) (m : Mem) (r : Register) :
    ((Mnemonics.LSR mode).handle m r).map (fun t => t.2.2)
      = some (baseCost (Mnemonics.LSR mode)
          + modeCycles (modeOf (Mnemonics.LSR mode))
          + specPenalty (Mnemonics.LSR mode) m r) := by
  cases mode <;> rfl

theorem c8aux_ROL (mode : Addressing) (m : Mem) (r : Register) :
    ((Mnemonics.ROL mode).handle m r).map (fun t => t.2.2)
      = some (baseCost (Mnemonics.ROL mode)
          + modeCycles (modeOf (Mnemonics.ROL mode))
          + specPenalty (Mnemonics.ROL mode) m r) := by
  cases mode <;> rfl

theorem c8aux_ROR (mode : Addressing) (m : Mem) (r : Register) :
    ((Mnemonics.ROR mode).handle m r).map (fun t => t.2.2)
      = some (baseCost (Mnemonics.ROR mode)
          + modeCycles (modeOf (Mnemonics.ROR mode))
          + specPenalty (Mnemonics.ROR mode) m r) := by
  cases mode <;> rfl

theorem c8aux_DEC (mode : Addressing) (m : Mem) (r : Register) :
    ((Mnemonics.DEC mode).handle m r).map (fun t => t.2.2)
      = some (baseCost (Mnemonics.DEC mode)
          + modeCycles (modeOf (Mnemonics.DEC mode))
          + specPenalty (Mnemonics.DEC mode) m r) := by
  cases mode <;> rfl

theorem c8aux_INC (mode : Addressing) (m : Mem) (r : Register) :
    ((Mnemonics.INC mode).handle m r).map (fun t => t.2.2)
      = some (baseCost (Mnemonics.INC mode)
          + modeCycles (modeOf (Mnemonics.INC mode))
          + specPenalty (Mnemonics.INC mode) m r) := by
  cases mode <;> rfl

theorem c8aux_STA (mode : Addressing) (m : Mem) (r : Register) :
    ((Mnemonics.STA mode).handle m r).map (fun t => t.2.2)
      = some (baseCost (Mnemonics.STA mode)
          + modeCycles (modeOf (Mnemonics.STA mode))
          + specPenalty (Mnemonics.STA mode) m r) := by
  cases mode <;> rfl

theorem c8aux_STX (mode : Addressing) (m : Mem) (r : Register) :
    ((Mnemonics.STX mode).handle m r).map (fun t => t.2.2)
      = some (baseCost (Mnemonics.STX mode)
          + modeCycles (modeOf (Mnemonics.STX mode))
          + specPenalty (Mnemonics.STX mode) m r) := by
  cases mode <;> rfl

theorem c8aux_STY (mode : Addressing) (m : Mem) (r : Register) :
    ((Mnemonics.STY mode).handle m r).map (fun t => t.2.2)
      = some (baseCost (Mnemonics.STY mode)
          + modeCycles (modeOf (Mnemonics.STY mode))
          + specPenalty (Mnemonics.STY mode) m r) := by
  cases mode <;> rfl

theorem c8aux_JMP (mode : Addressing) (m : Mem) (r : Register) :
    ((Mnemonics.JMP mode).handle m r).map (fun t => t.2.2)
      = some (baseCost (Mnemonics.JMP mode)
          + modeCycles (modeOf (Mnemonics.JMP mode))
          + specPenalty (Mnemonics.JMP mode) m r) := by
  cases mode <;> rfl

theorem c8aux_CLC (mode : Addressing) (m : Mem) (r : Register)
    (h : tableOk (Mnemonics.CLC mode) = true) :
    ((Mnemonics.CLC mode).handle m r).map (fun t => t.2.2)
      = some (baseCost (Mnemonics.CLC mode)
          + modeCycles (modeOf (Mnemonics.CLC mode))
          + specPenalty (Mnemonics.CLC mode) m r) := by
  cases mode <;> first | rfl | exact Bool.noConfusion h

theorem c8aux_CLD (mode : Addressing) (m : Mem) (r : Register)
    (h : tableOk (Mnemonics.CLD mode) = true) :
    ((Mnemonics.CLD mode).handle m r).map (fun t => t.2.2)
      = some (baseCost (Mnemonics.CLD mode)
          + modeCycles (modeOf (Mnemonics.CLD mode))
          + specPenalty (Mnemonics.CLD mode) m r) := by
  cases mode <;> first | rfl | exact Bool.noConfusion h

theorem c8aux_CLI (mode : Addressing) (m : Mem) (r : Register)
    (h : tableOk (Mnemonics.CLI mode) = true) :
    ((Mnemonics.CLI mode).handle m r).map (fun t => t.2.2)
      = some (baseCost (Mnemonics.CLI mode)
          + modeCycles (modeOf (Mnemonics.CLI mode))
          + specPenalty (Mnemonics.CLI mode) m r) := by
  cases mode <;> first | rfl | exact Bool.noConfusion h

theorem c8aux_CLV (mode : Addressing) (m : Mem) (r : Register)
    (h : tableOk (Mnemonics.CLV mode) = true) :
    ((Mnemonics.CLV mode).handle m r).map (fun t => t.2.2)
      = some (baseCost (Mnemonics.CLV mode)
          + modeCycles (modeOf (Mnemonics.CLV mode))
          + specPenalty (Mnemonics.CLV mode) m r) := by
  cases mode <;> first | rfl | exact Bool.noConfusion h

theorem c8aux_SEC (mode : Addressing) (m : Mem) (r : Register)
    (h : tableOk (Mnemonics.SEC mode) = true) :
    ((Mnemonics.SEC mode).handle m r).map (fun t => t.2.2)
      = some (baseCost (Mnemonics.SEC mode)
          + modeCycles (modeOf (Mnemonics.SEC mode))
          + specPenalty (Mnemonics.SEC mode) m r) := by
  cases mode <;> first | rfl | exact Bool.noConfusion h

theorem c8aux_SED (mode : Addressing) (m : Mem) (r : Register)
    (h : tableOk (Mnemonics.SED mode) = true) :
    ((Mnemonics.SED mode).handle m r).map (fun t => t.2.2)
      = some (baseCost (Mnemonics.SED mode)
          + modeCycles (modeOf (Mnemonics.SED mode))
          + specPenalty (Mnemonics.SED mode) m r) := by
  cases mode <;> first | rfl | exact Bool.noConfusion h

theorem c8aux_SEI (mode : Addressing) (m : Mem) (r : Register)
    (h : tableOk (Mnemonics.SEI mode) = true) :
    ((Mnemonics.SEI mode).handle m r).map (fun t => t.2.2)
      = some (baseCost (Mnemonics.SEI mode)
          + modeCycles (modeOf (Mnemonics.SEI mode))
          + specPenalty (Mnemonics.SEI mode) m r) := by
  cases mode <;> first | rfl | exact Bool.noConfusion h

theorem c8aux_DEX (mode : Addressing) (m : Mem) (r : Register)
    (h : tableOk (Mnemonics.DEX mode) = true) :
    ((Mnemonics.DEX mode).handle m r).map (fun t => t.2.2)
      = some (baseCost (Mnemonics.DEX mode)
          + modeCycles (modeOf (Mnemonics.DEX mode))
          + specPenalty (Mnemonics.DEX mode) m r) := by
  cases mode <;> first | rfl | exact Bool.noConfusion h

theorem c8aux_DEY (mode : Addressing) (m : Mem) (r : Register)
    (h : tableOk (Mnemonics.DEY mode) = true) :
    ((Mnemonics.DEY mode).handle m r).map (fun t => t.2.2)
      = some (baseCost (Mnemonics.DEY mode)
          + modeCycles (modeOf (Mnemonics.DEY mode))
          + specPenalty (Mnemonics.DEY mode) m r) := by
  cases mode <;> first | rfl | exact Bool.noConfusion h

theorem c8aux_INX (mode : Addressing) (m : Mem) (r : Register)
    (h : tableOk (Mnemonics.INX mode) = true) :
    ((Mnemonics.INX mode).handle m r).map (fun t => t.2.2)
      = some (baseCost (Mnemonics.INX mode)
          + modeCycles (modeOf (Mnemonics.INX mode))
          + specPenalty (Mnemonics.INX mode) m r) := by
  cases mode <;> first | rfl | exact Bool.noConfusion h

theorem c8aux_INY (mode : Addressing) (m : Mem) (r : Register)
    (h : tableOk (Mnemonics.INY mode) = true) :
    ((Mnemonics.INY mode).handle m r).map (fun t => t.2.2)
      = some (baseCost (Mnemonics.INY mode)
          + modeCycles (modeOf (Mnemonics.INY mode))
          + specPenalty (Mnemonics.INY mode) m r) := by
  cases mode <;> first | rfl | exact Bool.noConfusion h

theorem c8aux_TAX (mode : Addressing) (m : Mem) (r : Register)
    (h : tableOk (Mnemonics.TAX mode) = true) :
    ((Mnemonics.TAX mode).handle m r).map (fun t => t.2.2)
      = some (baseCost (Mnemonics.TAX mode)
          + modeCycles (modeOf (Mnemonics.TAX mode))
          + specPenalty (Mnemonics.TAX mode) m r) := by
  cases mode <;> first | rfl | exact Bool.noConfusion h

theorem c8aux_TAY (mode : Addressing) (m : Mem) (r : Register)
    (h : tableOk (Mnemonics.TAY mode) = true) :
    ((Mnemonics.TAY mode).handle m r).map (fun t => t.2.2)
      = some (baseCost (Mnemonics.TAY mode)
          + modeCycles (modeOf (Mnemonics.TAY mode))
          + specPenalty (Mnemonics.TAY mode) m r) := by
  cases mode <;> first | rfl | exact Bool.noConfusion h

theorem c8aux_TSX (mode : Addressing) (m : Mem) (r : Register)
    (h : tableOk (Mnemonics.TSX mode) = true) :
    ((Mnemonics.TSX mode).handle m r).map (fun t => t.2.2)
      = some (baseCost (Mnemonics.TSX mode)
          + modeCycles (modeOf (Mnemonics.TSX mode))
          + specPenalty (Mnemonics.TSX mode) m r) := by
  cases mode <;> first | rfl | exact Bool.noConfusion h

theorem c8aux_TXA (mode : Addressing) (m : Mem) (r : Register)
    (h : tableOk (Mnemonics.TXA mode) = true) :
    ((Mnemonics.TXA mode).handle m r).map (fun t => t.2.2)
      = some (baseCost (Mnemonics.TXA mode)
          + modeCycles (modeOf (Mnemonics.TXA mode))
          + specPenalty (Mnemonics.TXA mode) m r) := by
  cases mode <;> first | rfl | exact Bool.noConfusion h

theorem c8aux_TXS (mode : Addressing) (m : Mem) (r : Register)
    (h : tableOk (Mnemonics.TXS mode) = true) :
    ((Mnemonics.TXS mode).handle m r).map (fun t => t.2.2)
      = some (baseCost (Mnemonics.TXS mode)
          + modeCycles (modeOf (Mnemonics.TXS mode))
          + specPenalty (Mnemonics.TXS mode) m r) := by
  cases mode <;> first | rfl | exact Bool.noConfusion h

theorem c8aux_TYA (mode : Addressing) (m : Mem) (r : Register)
    (h : tableOk (Mnemonics.TYA mode) = true) :
    ((Mnemonics.TYA mode).handle m r).map (fun t => t.2.2)
      = some (baseCost (Mnemonics.TYA mode)
          + modeCycles (modeOf (Mnemonics.TYA mode))
          + specPenalty (Mnemonics.TYA mode) m r) := by
  cases mode <;> first | rfl | exact Bool.noConfusion h

theorem c8aux_NOP (mode : Addressing) (m : Mem) (r : Register)
    (h : tableOk (Mnemonics.NOP mode) = true) :
    ((Mnemonics.NOP mode).handle m r).map (fun t => t.2.2)
      = some (baseCost (Mnemonics.NOP mode)
          + modeCycles (modeOf (Mnemonics.NOP mode))
          + specPenalty (Mnemonics.NOP mode) m r) := by
  cases mode <;> first | rfl | exact Bool.noConfusion h

theorem c8aux_PHA (mode : Addressing) (m : Mem) (r : Register)
    (h : tableOk (Mnemonics.PHA mode) = true) :
    ((Mnemonics.PHA mode).handle m r).map (fun t => t.2.2)
      = some (baseCost (Mnemonics.PHA mode)
          + modeCycles (modeOf (Mnemonics.PHA mode))
          + specPenalty (Mnemonics.PHA mode) m r) := by
  cases mode <;> first | rfl | exact Bool.noConfusion h

theorem c8aux_PHP (mode : Addressing) (m : Mem) (r : Register)
    (h : tableOk (Mnemonics.PHP mode) = true) :
    ((Mnemonics.PHP mode).handle m r).map (fun t => t.2.2)
      = some (baseCost (Mnemonics.PHP mode)
          + modeCycles (modeOf (Mnemonics.PHP mode))
          + specPenalty (Mnemonics.PHP mode) m r) := by
  cases mode <;> first | rfl | exact Bool.noConfusion h

theorem c8aux_PLA (mode : Addressing) (m : Mem) (r : Register)
    (h : tableOk (Mnemonics.PLA mode) = true) :
    ((Mnemonics.PLA mode).handle m r).map (fun t => t.2.2)
      = some (baseCost (Mnemonics.PLA mode)
          + modeCycles (modeOf (Mnemonics.PLA mode))
          + specPenalty (Mnemonics.PLA mode) m r) := by
  cases mode <;> first | rfl | exact Bool.noConfusion h

theorem c8aux_PLP (mode : Addressing) (m : Mem) (r : Register)
    (h : tableOk (Mnemonics.PLP mode) = true) :
    ((Mnemonics.PLP mode).handle m r).map (fun t => t.2.2)
      = some (baseCost (Mnemonics.PLP mode)
          + modeCycles (modeOf (Mnemonics.PLP mode))
          + specPenalty (Mnemonics.PLP mode) m r) := by
  cases mode <;> first | rfl | exact Bool.noConfusion h

theorem c8aux_RTI (mode : Addressing) (m : Mem) (r : Register)
    (h : tableOk (Mnemonics.RTI mode) = true) :
    ((Mnemonics.RTI mode).handle m r).map (fun t => t.2.2)
      = some (baseCost (Mnemonics.RTI mode)
          + modeCycles (modeOf (Mnemonics.RTI mode))
          + specPenalty (Mnemonics.RTI mode) m r) := by
  cases mode <;> first | rfl | exact Bool.noConfusion h

theorem c8aux_RTS (mode : Addressing) (m : Mem) (r : Register)
    (h : tableOk (Mnemonics.RTS mode) = true) :
    ((Mnemonics.RTS mode).handle m r).map (fun t => t.2.2)
      = some (baseCost (Mnemonics.RTS mode)
          + modeCycles (modeOf (Mnemonics.RTS mode))
          + specPenalty (Mnemonics.RTS mode) m r) := by
  cases mode <;> first | rfl | exact Bool.noConfusion h

theorem c8aux_BRK (mode : Addressing) (m : Mem) (r : Register)
    (h : tableOk (Mnemonics.BRK mode) = true) :
    ((Mnemonics.BRK mode).handle m r).map (fun t => t.2.2)
      = some (baseCost (Mnemonics.BRK mode)
          + modeCycles (modeOf (Mnemonics.BRK mode))
          + specPenalty (Mnemonics.BRK mode) m r) := by
  cases mode <;> first | rfl | exact Bool.noConfusion h

theorem c8aux_JSR (mode : Addressing) (m : Mem) (r : Register)
    (h : tableOk (Mnemonics.JSR mode) = true) :
    ((Mnemonics.JSR mode).handle m r).map (fun t => t.2.2)
      = some (baseCost (Mnemonics.JSR mode)
          + modeCycles (modeOf (Mnemonics.JSR mode))
          + specPenalty (Mnemonics.JSR mode) m r) := by
  cases mode <;> first | rfl | exact Bool.noConfusion h

/-- C8 amended: for every supported non-branch opcode (a non-NUL entry of
the decode table) and every machine state, the cycle count the handler
returns equals its fixed base cost plus the addressing resolver's cycle
contribution, plus one extra cycle exactly when a read-style mnemonic in
AbsoluteX, AbsoluteY or IndirectY form crossed a page; stores and
read-modify-writes never pay the penalty. -/
theorem c8_amended (mn : Mnemonics) (m : Mem) (r : Register)
    (hmem : mn ∈ OPCODES) (hbr : specIsBranch mn = false)
    (hnul : mn ≠ Mnemonics.NUL) :
    (mn.handle m r).map (fun t => t.2.2)
      = some (baseCost mn + modeCycles (modeOf mn) + specPenalty mn m r) := by
  cases mn with
  | NUL => exact absurd rfl hnul
  | BCC mode => exact Bool.noConfusion hbr
  | BCS mode => exact Bool.noConfusion hbr
  | BEQ mode => exact Bool.noConfusion hbr
  | BMI mode => exact Bool.noConfusion hbr
  | BNE mode => exact Bool.noConfusion hbr
  | BPL mode => exact Bool.noConfusion hbr
  | BVC mode => exact Bool.noConfusion hbr
  | BVS mode => exact Bool.noConfusion hbr
  | ADC mode => exact c8aux_ADC mode m r (tableOk_of_mem _ hmem)
  | AND mode => exact c8aux_AND mode m r (tableOk_of_mem _ hmem)
  | CMP mode => exact c8aux_CMP mode m r (tableOk_of_mem _ hmem)
  | CPX mode => exact c8aux_CPX mode m r (tableOk_of_mem _ hmem)
  | CPY mode => exact c8aux_CPY mode m r (tableOk_of_mem _ hmem)
  | EOR mode => exact c8aux_EOR mode m r (tableOk_of_mem _ hmem)
  | LDA mode => exact c8aux_LDA mode m r (tableOk_of_mem _ hmem)
  | LDX mode => exact c8aux_LDX mode m r (tableOk_of_mem _ hmem)
  | LDY mode => exact c8aux_LDY mode m r (tableOk_of_mem _ hmem)
  | ORA mode => exact c8aux_ORA mode m r (tableOk_of_mem _ hmem)
  | SBC mode => exact c8aux_SBC mode m r (tableOk_of_mem _ hmem)
  | CLC mode => exact c8aux_CLC mode m r (tableOk_of_mem _ hmem)
  | CLD mode => exact c8aux_CLD mode m r (tableOk_of_mem _ hmem)
  | CLI mode => exact c8aux_CLI mode m r (tableOk_of_mem _ hmem)
  | CLV mode => exact c8aux_CLV mode m r (tableOk_of_mem _ hmem)
  | SEC mode => exact c8aux_SEC mode m r (tableOk_of_mem _ hmem)
  | SED mode => exact c8aux_SED mode m r (tableOk_of_mem _ hmem)
  | SEI mode => exact c8aux_SEI mode m r (tableOk_of_mem _ hmem)
  | DEX mode => exact c8aux_DEX mode m r (tableOk_of_mem _ hmem)
  | DEY mode => exact c8aux_DEY mode m r (tableOk_of_mem _ hmem)
  | INX mode => exact c8aux_INX mode m r (tableOk_of_mem _ hmem)
  | INY mode => exact c8aux_INY mode m r (tableOk_of_mem _ hmem)
  | TAX mode => exact c8aux_TAX mode m r (tableOk_of_mem _ hmem)
  | TAY mode => exact c8aux_TAY mode m r (tableOk_of_mem _ hmem)
  | TSX mode => exact c8aux_TSX mode m r (tableOk_of_mem _ hmem)
  | TXA mode => exact c8aux_TXA mode m r (tableOk_of_mem _ hmem)
  | TXS mode => exact c8aux_TXS mode m r (tableOk_of_mem _ hmem)
  | TYA mode => exact c8aux_TYA mode m r (tableOk_of_mem _ hmem)
  | NOP mode => exact c8aux_NOP mode m r (tableOk_of_mem _ hmem)
  | PHA mode => exact c8aux_PHA mode m r (tableOk_of_mem _ hmem)
  | PHP mode => exact c8aux_PHP mode m r (tableOk_of_mem _ hmem)
  | PLA mode => exact c8aux_PLA mode m r (tableOk_of_mem _ hmem)
  | PLP mode => exact c8aux_PLP mode m r (tableOk_of_mem _ hmem)
  | RTI mode => exact c8aux_RTI mode m r (tableOk_of_mem _ hmem)
  | RTS mode => exact c8aux_RTS mode m r (tableOk_of_mem _ hmem)
  | BRK mode => exact c8aux_BRK mode m r (tableOk_of_mem _ hmem)
  | JSR mode => exact c8aux_JSR mode m r (tableOk_of_mem _ hmem)
  | BIT mode => exact c8aux_BIT mode m r
  | ASL mode => exact c8aux_ASL mode m r
  | LSR mode => exact c8aux_LSR mode m r
  | ROL mode => exact c8aux_ROL mode m r
  | ROR mode => exact c8aux_ROR mode m r
  | DEC mode => exact c8aux_DEC mode m r
  | INC mode => exact c8aux_INC mode m r
  | STA mode => exact c8aux_STA mode m r
  | STX mode => exact c8aux_STX mode m r
  | STY mode => exact c8aux_STY mode m r
  | JMP mode => exact c8aux_JMP mode m r


/-- Program for the C8 counterexample: BEQ with displacement 2. -/
def c8Mem : Mem := fun i =>
  if i = 0x0600 then 0xF0 else if i = 0x0601 then 0x02 else 0

set_option maxRecDepth 8000 in
/-- C8 counterexample: BEQ Relative is a supported opcode, yet with Z
clear its handler charges 2 cycles and with Z set 3 cycles, while the
claimed state-independent sum base + resolver + penalty is 3 (the
penalty being 0 since a branch is not a read-style AbsoluteX, AbsoluteY
or IndirectY instruction): the claim's formula fails on the untaken
branch. -/
theorem c8_counterexample :
    Mnemonics.BEQ Addressing.Relative ∈ OPCODES ∧
    ((Mnemonics.BEQ Addressing.Relative).handle c8Mem
        (Register.new.set_pc 0x0601)).map (fun t => t.2.2) = some 2 ∧
    ((Mnemonics.BEQ Addressing.Relative).handle c8Mem
        ((Register.new.set_zero_bit true).set_pc 0x0601)).map
        (fun t => t.2.2) = some 3 ∧
    baseCost (Mnemonics.BEQ Addressing.Relative)
      + modeCycles (modeOf (Mnemonics.BEQ Addressing.Relative))
      + specPenalty (Mnemonics.BEQ Addressing.Relative) c8Mem
          (Register.new.set_pc 0x0601) = 3 :=
  ⟨decode_mem 0xF0 (by omega), rfl, rfl, by decide⟩

/-- Memory of the C8 witness: an LDA AbsoluteX instruction with base
0x5AFC placed so that X = 0x10 crosses into page 0x5B. -/
def c8wMem : Mem := fun i => if i = 0 then 0xfc else if i = 1 then 0x5a else 0

/-- Register file of the C8 witness. -/
def c8wReg : Register := (Register.new.set_pc 0).set_x 0x10

set_option maxRecDepth 8000 in
/-- Witness for C8 amended at a page-crossing LDA AbsoluteX. -/
theorem c8_amended_witness :
    ((Mnemonics.LDA Addressing.AbsoluteX).handle c8wMem c8wReg).map
        (fun t => t.2.2)
      = some (baseCost (Mnemonics.LDA Addressing.AbsoluteX)
          + modeCycles (modeOf (Mnemonics.LDA Addressing.AbsoluteX))
          + specPenalty (Mnemonics.LDA Addressing.AbsoluteX) c8wMem c8wReg) :=
  c8_amended (Mnemonics.LDA Addressing.AbsoluteX) c8wMem c8wReg
    (decode_mem 0xBD (by omega)) (by decide)
    (fun h => Mnemonics.noConfusion h)

end AtariCpu
